import Mathlib

/-!
# Verification of the query fan-out core (Streamlit apps)

Shallow embedding of the two source files
`streamlit/howden-query-fan-out.py` (bulk/advanced variant) and
`streamlit/howden-query-fan-out-single.py` (single-query variant):
Python string primitives, a model of CPython's `json.loads`, the prompt
builders, the fence-stripping response parser, the per-item batch loop with
its exception handling, and the single-query run handler.
-/

set_option maxHeartbeats 4000000
set_option maxRecDepth 100000

namespace QFanOut

/-! ## Python string primitives -/

/-- The characters removed by Python's `str.strip()` (the `str.isspace`
whitespace set). -/
def pyIsSpace (c : Char) : Bool :=
  c = ' ' || c = '\t' || c = '\n' || c = '\r' || c = '\x0b' || c = '\x0c' ||
  c = '\x1c' || c = '\x1d' || c = '\x1e' || c = '\x1f' || c = '\x85' ||
  c = '\xa0' || c = ' ' ||
  (0x2000 ≤ c.toNat && c.toNat ≤ 0x200a) ||
  c = ' ' || c = ' ' || c = ' ' || c = ' ' || c = '　'

/-- Strip `pyIsSpace` characters from both ends of a character list. -/
def stripList (l : List Char) : List Char :=
  ((l.dropWhile pyIsSpace).reverse.dropWhile pyIsSpace).reverse

/-- Python `s.strip()`. -/
def pyStrip (s : String) : String := ⟨stripList s.data⟩

/-- Python `s.startswith(pre)`. -/
def pyStartswith (s pre : String) : Bool := pre.data.isPrefixOf s.data

/-- Python `s.endswith(suf)`. -/
def pyEndswith (s suf : String) : Bool := suf.data.reverse.isPrefixOf s.data.reverse

/-- Python `s[n:]` for a non-negative index `n`. -/
def strDrop (s : String) (n : Nat) : String := ⟨s.data.drop n⟩

/-- Python `s[:-n]` for a positive `n` (empty result when `n ≥ len(s)`). -/
def strDropRight (s : String) (n : Nat) : String := ⟨s.data.take (s.data.length - n)⟩

/-- The line-break characters recognised by Python's `str.splitlines`. -/
def pyIsLineBreak (c : Char) : Bool :=
  c = '\n' || c = '\r' || c = '\x0b' || c = '\x0c' ||
  c = '\x1c' || c = '\x1d' || c = '\x1e' || c = '\x85' ||
  c = ' ' || c = ' '

/-- Worker for `str.splitlines`: `acc` holds the current line reversed. -/
def pySplitlinesAux : List Char → List Char → List String
  | [], acc => if acc.isEmpty then [] else [⟨acc.reverse⟩]
  | '\r' :: '\n' :: rest, acc => ⟨acc.reverse⟩ :: pySplitlinesAux rest []
  | c :: rest, acc =>
    if pyIsLineBreak c then ⟨acc.reverse⟩ :: pySplitlinesAux rest []
    else pySplitlinesAux rest (c :: acc)

/-- Python `s.splitlines()`. -/
def pySplitlines (s : String) : List String := pySplitlinesAux s.data []

/-- Python `sep.join(parts)`. -/
def strJoin (sep : String) : List String → String
  | [] => ""
  | [x] => x
  | x :: y :: rest => x ++ sep ++ strJoin sep (y :: rest)

/-! ## JSON values

Result values of CPython's `json.loads`.  Integer literals become Python
`int` (arbitrary precision, modelled by `Int`); literals with a fraction or
exponent become Python `float`, which we keep as the matched source token
(the claims never compare distinct float tokens).  `NaN`, `Infinity` and
`-Infinity` (accepted by CPython) are kept as their tokens as well. -/

inductive Json where
  | null : Json
  | bool : Bool → Json
  | jint : Int → Json
  | jfloat : String → Json
  | str : String → Json
  | arr : List Json → Json
  | obj : List (String × Json) → Json

/-- Python type name of a parsed JSON value (for exception messages). -/
def typeName : Json → String
  | .null => "NoneType"
  | .bool _ => "bool"
  | .jint _ => "int"
  | .jfloat _ => "float"
  | .str _ => "str"
  | .arr _ => "list"
  | .obj _ => "dict"

/-- The backtick character (code point 96), used by markdown code fences. -/
def bq : Char := '\x60'

/-! ## CPython `json.loads`

A model of the scanner in CPython's `json` module: JSON whitespace is
`[ \t\n\r]`, values are strings, objects, arrays, `null`/`true`/`false`,
numbers matching `-?(0|[1-9][0-9]*)(\.[0-9]+)?([eE][+-]?[0-9]+)?`, and the
extensions `NaN`, `Infinity`, `-Infinity`.  Errors carry the message and the
character position, formatted as `msg: line L column C (char P)` like
`json.JSONDecodeError`.  Recursion is bounded by fuel standing in for
Python's recursion limit; `json_loads` passes fuel `4 * len + 8`,
which no input can exhaust because along any chain of nested scanner calls
at most four fuel decrements happen per input character.  Two deliberate simplifications of diagnostic corners, none
reachable in any theorem below: the `{0!r}` reprs inside two error messages
are simplified, and a lone UTF-16 surrogate from a `\uXXXX` escape becomes
U+FFFD because a Lean `Char` must be a scalar value. -/

structure JsonErr where
  msg : String
  pos : Nat
deriving DecidableEq

/-- JSON whitespace, the regex `[ \t\n\r]` used by `json.decoder`. -/
def jsonWs (c : Char) : Bool := c = ' ' || c = '\t' || c = '\n' || c = '\r'

/-- Skip JSON whitespace, tracking the character position. -/
def skipWs : List Char → Nat → List Char × Nat
  | [], p => ([], p)
  | c :: r, p => if jsonWs c then skipWs r (p + 1) else (c :: r, p)

/-- Hexadecimal digit value. -/
def hexVal (c : Char) : Option Nat :=
  if '0' ≤ c && c ≤ '9' then some (c.toNat - 48)
  else if 'a' ≤ c && c ≤ 'f' then some (c.toNat - 87)
  else if 'A' ≤ c && c ≤ 'F' then some (c.toNat - 55)
  else none

/-- Read four hex digits (the body of a `\uXXXX` escape). -/
def hex4? : List Char → Option (Nat × List Char)
  | a :: b :: c :: d :: r =>
    match hexVal a, hexVal b, hexVal c, hexVal d with
    | some x, some y, some z, some w => some (((x * 16 + y) * 16 + z) * 16 + w, r)
    | _, _, _, _ => none
  | _ => none

/-- The `BACKSLASH` escape table of `json.decoder`. -/
def escChar? : Char → Option Char
  | '"' => some '"'
  | '\\' => some '\\'
  | '/' => some '/'
  | 'b' => some '\x08'
  | 'f' => some '\x0c'
  | 'n' => some '\n'
  | 'r' => some '\r'
  | 't' => some '\t'
  | _ => none

/-- `chr(n)`, with a lone surrogate degraded to U+FFFD (see above). -/
def mkCharSafe (n : Nat) : Char :=
  if Nat.isValidChar n then Char.ofNat n else '�'

/-- Integer part of the number grammar: `0|[1-9][0-9]*`. -/
def scanIntPart : List Char → Option (List Char × List Char)
  | '0' :: r => some (['0'], r)
  | c :: r =>
    if '1' ≤ c && c ≤ '9' then
      some (c :: r.takeWhile Char.isDigit, r.dropWhile Char.isDigit)
    else none
  | [] => none

/-- Fraction part `\.[0-9]+`, or `none` when absent (regex backtracking). -/
def scanFrac : List Char → Option (List Char × List Char)
  | '.' :: d :: r =>
    if d.isDigit then
      some ('.' :: d :: r.takeWhile Char.isDigit, r.dropWhile Char.isDigit)
    else none
  | _ => none

/-- Exponent part `[eE][+-]?[0-9]+`, or `none` when absent. -/
def scanExpPart : List Char → Option (List Char × List Char)
  | e :: rest =>
    if e = 'e' || e = 'E' then
      match rest with
      | c :: r =>
        if c = '+' || c = '-' then
          match r with
          | d :: r1 =>
            if d.isDigit then
              some (e :: c :: d :: r1.takeWhile Char.isDigit, r1.dropWhile Char.isDigit)
            else none
          | [] => none
        else if c.isDigit then
          some (e :: c :: r.takeWhile Char.isDigit, r.dropWhile Char.isDigit)
        else none
      | [] => none
    else none
  | [] => none

/-- Decimal digits to a natural number (Python `int` of a digit string). -/
def digitsToNat (l : List Char) : Nat :=
  l.foldl (fun a c => a * 10 + (c.toNat - 48)) 0

/-- The `NUMBER_RE` match of `json.scanner` at the head of `cs`: an integer
literal yields a Python `int`, a fraction or exponent yields a `float`
kept as its token. -/
def scanNumber (cs : List Char) (p : Nat) : Option (Json × List Char × Nat) :=
  let sgn : List Char := if cs.head? = some '-' then ['-'] else []
  let cs1 : List Char := if cs.head? = some '-' then cs.tail else cs
  match scanIntPart cs1 with
  | none => none
  | some (ip, r1) =>
    let fpr2 := (scanFrac r1).getD ([], r1)
    let epr3 := (scanExpPart fpr2.2).getD ([], fpr2.2)
    let consumed := sgn ++ ip ++ fpr2.1 ++ epr3.1
    if fpr2.1.isEmpty && epr3.1.isEmpty then
      let n : Int := Int.ofNat (digitsToNat ip)
      some (.jint (if sgn.isEmpty then n else -n), epr3.2, p + consumed.length)
    else
      some (.jfloat ⟨consumed⟩, epr3.2, p + consumed.length)

/-- `py_scanstring` after the opening quote: `bg` is the position of the
opening quote (for the unterminated-string error), `acc` the reversed
characters collected so far.  The hex digits of `\uXXXX` escapes are
destructured inline so the recursion is structural on the input. -/
def scanStringTail : Nat → Nat → List Char → Nat → List Char →
    Except JsonErr (String × List Char × Nat)
  | 0, _, _, p, _ => .error ⟨"maximum recursion depth exceeded", p⟩
  | _ + 1, bg, [], _, _ => .error ⟨"Unterminated string starting at", bg⟩
  | fuel + 1, bg, c :: cs1, p, acc =>
    if c = '"' then .ok (⟨acc.reverse⟩, cs1, p + 1)
    else if c = '\\' then
      match cs1 with
      | [] => .error ⟨"Unterminated string starting at", bg⟩
      | e :: cs2 =>
        if e = 'u' then
          match cs2 with
          | h1 :: h2 :: h3 :: h4 :: cs3 =>
            match hexVal h1, hexVal h2, hexVal h3, hexVal h4 with
            | some x1, some x2, some x3, some x4 =>
              let n := ((x1 * 16 + x2) * 16 + x3) * 16 + x4
              if 0xd800 ≤ n && n ≤ 0xdbff then
                match cs3 with
                | '\\' :: 'u' :: k1 :: k2 :: k3 :: k4 :: cs5 =>
                  match hexVal k1, hexVal k2, hexVal k3, hexVal k4 with
                  | some y1, some y2, some y3, some y4 =>
                    let m := ((y1 * 16 + y2) * 16 + y3) * 16 + y4
                    if 0xdc00 ≤ m && m ≤ 0xdfff then
                      scanStringTail fuel bg cs5 (p + 12)
                        (mkCharSafe (0x10000 + (n - 0xd800) * 1024 + (m - 0xdc00)) :: acc)
                    else
                      scanStringTail fuel bg cs3 (p + 6) (mkCharSafe n :: acc)
                  | _, _, _, _ => .error ⟨"Invalid \\uXXXX escape", p + 7⟩
                | _ => scanStringTail fuel bg cs3 (p + 6) (mkCharSafe n :: acc)
              else scanStringTail fuel bg cs3 (p + 6) (mkCharSafe n :: acc)
            | _, _, _, _ => .error ⟨"Invalid \\uXXXX escape", p + 1⟩
          | _ => .error ⟨"Invalid \\uXXXX escape", p + 1⟩
        else
          match escChar? e with
          | some ch => scanStringTail fuel bg cs2 (p + 2) (ch :: acc)
          | none => .error ⟨"Invalid \\escape: " ++ ⟨[e]⟩, p + 1⟩
    else if c.toNat < 0x20 then .error ⟨"Invalid control character at", p + 1⟩
    else scanStringTail fuel bg cs1 (p + 1) (c :: acc)

/-- The pending scanner task: `_scan_once` dispatch, the `JSONObject`
entry and member loop, and the `JSONArray` entry and element loop.  The
five CPython scanner functions are merged into one fuel-indexed function
`scan` so the recursion is structural on the fuel. -/
inductive Task where
  | value : Task
  | oStart : Task
  | oRest : List (String × Json) → Task
  | aStart : Task
  | aRest : List Json → Task

/-- The scanner: `scan fuel .value cs p` is `_scan_once` at position `p`,
`.oStart`/`.oRest prs` the `JSONObject` code after the `{` resp. after a
key's opening quote, `.aStart`/`.aRest vs` likewise for `JSONArray`. -/
def scan : Nat → Task → List Char → Nat → Except JsonErr (Json × List Char × Nat)
  | 0, _, _, p => .error ⟨"maximum recursion depth exceeded", p⟩
  | fuel + 1, .value, cs, p =>
    match cs with
    | '"' :: cs1 =>
      match scanStringTail fuel p cs1 (p + 1) [] with
      | .ok (s, r, p2) => .ok (.str s, r, p2)
      | .error e => .error e
    | '{' :: cs1 => scan fuel .oStart cs1 (p + 1)
    | '[' :: cs1 => scan fuel .aStart cs1 (p + 1)
    | 'n' :: 'u' :: 'l' :: 'l' :: cs1 => .ok (.null, cs1, p + 4)
    | 't' :: 'r' :: 'u' :: 'e' :: cs1 => .ok (.bool true, cs1, p + 4)
    | 'f' :: 'a' :: 'l' :: 's' :: 'e' :: cs1 => .ok (.bool false, cs1, p + 5)
    | rest =>
      match scanNumber rest p with
      | some r => .ok r
      | none =>
        match rest with
        | 'N' :: 'a' :: 'N' :: cs1 => .ok (.jfloat "NaN", cs1, p + 3)
        | 'I' :: 'n' :: 'f' :: 'i' :: 'n' :: 'i' :: 't' :: 'y' :: cs1 =>
          .ok (.jfloat "Infinity", cs1, p + 8)
        | '-' :: 'I' :: 'n' :: 'f' :: 'i' :: 'n' :: 'i' :: 't' :: 'y' :: cs1 =>
          .ok (.jfloat "-Infinity", cs1, p + 9)
        | _ => .error ⟨"Expecting value", p⟩
  | fuel + 1, .oStart, cs, p =>
    match skipWs cs p with
    | (cs1, p1) =>
      match cs1 with
      | '}' :: r => .ok (.obj [], r, p1 + 1)
      | '"' :: r => scan fuel (.oRest []) r (p1 + 1)
      | _ => .error ⟨"Expecting property name enclosed in double quotes", p1⟩
  | fuel + 1, .oRest prs, cs, p =>
    match scanStringTail fuel (p - 1) cs p [] with
    | .error e => .error e
    | .ok (key, cs2, p2) =>
      match skipWs cs2 p2 with
      | (cs3, p3) =>
        match cs3 with
        | ':' :: cs4 =>
          match skipWs cs4 (p3 + 1) with
          | (cs5, p5) =>
            match scan fuel .value cs5 p5 with
            | .error e => .error e
            | .ok (v, cs6, p6) =>
              match skipWs cs6 p6 with
              | (cs7, p7) =>
                match cs7 with
                | '}' :: r => .ok (.obj (prs ++ [(key, v)]), r, p7 + 1)
                | ',' :: r =>
                  match skipWs r (p7 + 1) with
                  | (cs8, p8) =>
                    match cs8 with
                    | '"' :: r2 => scan fuel (.oRest (prs ++ [(key, v)])) r2 (p8 + 1)
                    | _ => .error ⟨"Expecting property name enclosed in double quotes", p8⟩
                | _ => .error ⟨"Expecting ',' delimiter", p7⟩
        | _ => .error ⟨"Expecting ':' delimiter", p3⟩
  | fuel + 1, .aStart, cs, p =>
    match skipWs cs p with
    | (cs1, p1) =>
      match cs1 with
      | ']' :: r => .ok (.arr [], r, p1 + 1)
      | _ => scan fuel (.aRest []) cs1 p1
  | fuel + 1, .aRest vs, cs, p =>
    match scan fuel .value cs p with
    | .error e => .error e
    | .ok (v, cs2, p2) =>
      match skipWs cs2 p2 with
      | (cs3, p3) =>
        match cs3 with
        | ']' :: r => .ok (.arr (vs ++ [v]), r, p3 + 1)
        | ',' :: r =>
          match skipWs r (p3 + 1) with
          | (cs4, p4) => scan fuel (.aRest (vs ++ [v])) cs4 p4
        | _ => .error ⟨"Expecting ',' delimiter", p3⟩

/-- `_scan_once` of `json.scanner` (dispatch on the next character). -/
def scanValue (fuel : Nat) (cs : List Char) (p : Nat) :
    Except JsonErr (Json × List Char × Nat) :=
  scan fuel .value cs p


/-- `json.loads`: skip whitespace, scan one value, require only whitespace
after it. -/
def json_loads (doc : String) : Except JsonErr Json :=
  let cs := doc.data
  match skipWs cs 0 with
  | (cs1, p1) =>
    match scanValue (4 * cs.length + 8) cs1 p1 with
    | .error e => .error e
    | .ok (v, rest, p2) =>
      match skipWs rest p2 with
      | (rest2, p3) => if rest2.isEmpty then .ok v else .error ⟨"Extra data", p3⟩

/-- `str(e)` for a `json.JSONDecodeError`: CPython renders
`'%s: line %d column %d (char %d)'` where `lineno` counts newlines before
`pos` and `colno` is the distance to the previous newline. -/
def fmtJsonErrStr (msg : String) (doc : String) (pos : Nat) : String :=
  let pre := doc.data.take pos
  let lineno := pre.count '\n' + 1
  let colno : Nat :=
    match pre.reverse.findIdx? (fun c => c = '\n') with
    | some k => k + 1
    | none => pos + 1
  msg ++ ": line " ++ toString lineno ++ " column " ++ toString colno ++
    " (char " ++ toString pos ++ ")"

end QFanOut

namespace QFanOut

/-! ## Python exceptions

The exceptions visible to the apps: `json.JSONDecodeError` (kept with the
document so `str(e)` can render line/column), `TypeError` and
`AttributeError` from post-parse processing, and any exception raised by the
generation client (`genai` transport/auth/quota faults or a failing
`response.text`), which the apps only ever stringify. -/

inductive PyExc where
  | jsonDecode : String → String → Nat → PyExc
  | typeError : String → PyExc
  | attrError : String → PyExc
  | clientError : String → PyExc

/-- Python `str(e)`. -/
def pyExcStr : PyExc → String
  | .jsonDecode m d p => fmtJsonErrStr m d p
  | .typeError m => m
  | .attrError m => m
  | .clientError m => m

/-! ## Python operations on parsed JSON values -/

/-- Python `dict` lookup on parsed pairs: a later duplicate key wins. -/
def lookupLast (kvs : List (String × Json)) (k : String) : Option Json :=
  kvs.foldl (fun acc kv => if kv.1 = k then some kv.2 else acc) none

/-- `dict.get` with a default, never failing (total helper). -/
def dGet (kvs : List (String × Json)) (k : String) (d : Json) : Json :=
  (lookupLast kvs k).getD d

/-- The keys of a Python dict in first-occurrence order. -/
def dictKeys (kvs : List (String × Json)) : List String :=
  kvs.foldl (fun acc kv => if acc.contains kv.1 then acc else acc ++ [kv.1]) []

/-- Python `v.get(k, d)`: only a dict has `.get`; anything else raises
`AttributeError`. -/
def pyDictGet (v : Json) (k : String) (d : Json) : Except PyExc Json :=
  match v with
  | .obj kvs => .ok (dGet kvs k d)
  | _ => .error (.attrError ("'" ++ typeName v ++ "' object has no attribute 'get'"))

/-- Python `for x in v`: list elements, string characters, dict keys;
anything else raises `TypeError`. -/
def pyIterElems : Json → Except PyExc (List Json)
  | .arr xs => .ok xs
  | .str s => .ok (s.data.map fun c => Json.str ⟨[c]⟩)
  | .obj kvs => .ok ((dictKeys kvs).map Json.str)
  | j => .error (.typeError ("'" ++ typeName j ++ "' object is not iterable"))

/-- Python `len(v)`.  For every iterable JSON value this equals the number
of elements produced by `pyIterElems`. -/
def pyLen : Json → Except PyExc Nat
  | .str s => .ok s.data.length
  | .arr xs => .ok xs.length
  | .obj kvs => .ok (dictKeys kvs).length
  | j => .error (.typeError ("object of type '" ++ typeName j ++ "' has no len()"))

/-- Python truthiness of a parsed JSON value.  A float token is truthy
exactly when its mantissa has a nonzero digit or it is `NaN`/`Infinity`. -/
def pyTruthy : Json → Bool
  | .null => false
  | .bool b => b
  | .jint n => n != 0
  | .jfloat tok =>
    (tok.data.takeWhile fun c => c != 'e' && c != 'E').any
      (fun c => ('1' ≤ c && c ≤ '9') || c = 'N' || c = 'I')
  | .str s => s != ""
  | .arr xs => !xs.isEmpty
  | .obj kvs => !(dictKeys kvs).isEmpty

/-- Python `isinstance(v, int)` on a parsed JSON value; `bool` is a
subclass of `int` in Python. -/
def pyIsInstanceInt : Json → Bool
  | .jint _ => true
  | .bool _ => true
  | _ => false

/-- The `int` value of a `jint` or `bool` (Python `True == 1`). -/
def pyIntVal : Json → Int
  | .jint n => n
  | .bool b => if b then 1 else 0
  | _ => 0

/-- Python `str(v)` for the values reaching the mismatch warning. -/
def pyStrInt : Json → String
  | .jint n => toString n
  | .bool b => if b then "True" else "False"
  | _ => ""

/-! ## Prompt builders -/

/-- `ALLOWED_FORMATS` of `howden-query-fan-out.py`. -/
def ALLOWED_FORMATS : List String :=
  ["web_article", "faq_page", "how_to_steps", "comparison_table",
   "buyers_guide", "checklist", "product_spec_sheet", "glossary/definition",
   "pricing_page", "review_roundup", "tutorial_video/transcript",
   "podcast_transcript", "code_samples/docs", "api_reference",
   "calculator/tool", "dataset", "image_gallery", "map/local_pack",
   "forum/qna", "pdf_whitepaper", "case_study", "press_release",
   "interactive_widget"]

/-- `QUERY_FANOUT_PROMPT` of `howden-query-fan-out.py` (bulk/advanced
variant).  The mode strings are the two radio labels
`"AI Overview (simple)"` and `"AI Mode (complex)"`. -/
def QUERY_FANOUT_PROMPT (q mode : String) : String :=
  let min_queries_simple : Nat := 10
  let min_queries_complex : Nat := 20
  let num_queries_instruction :=
    if mode = "AI Overview (simple)" then
      "First, analyze the user's query: \"" ++ q ++
      "\". Based on its complexity and the '" ++ mode ++ "' mode, " ++
      "you must decide on an optimal number of queries to generate. " ++
      "This number must be at least " ++ toString min_queries_simple ++ ". " ++
      "For a straightforward query, generate around " ++
      toString min_queries_simple ++ "-" ++ toString (min_queries_simple + 2) ++ ". " ++
      "If the query has a few distinct aspects or common follow-ups, aim for " ++
      toString (min_queries_simple + 3) ++ "-" ++ toString (min_queries_simple + 5) ++ ". " ++
      "Provide brief reasoning for why you chose this number."
    else
      "First, analyze the user's query: \"" ++ q ++
      "\". Based on its complexity and the '" ++ mode ++ "' mode, " ++
      "you must decide on an optimal number of queries to generate. " ++
      "This number must be at least " ++ toString min_queries_complex ++ ". " ++
      "For multifaceted queries that span comparisons, procedures, specs, or trade-offs, " ++
      "generate " ++ toString (min_queries_complex + 5) ++ "-" ++
      toString (min_queries_complex + 10) ++ " or more. " ++
      "Provide brief reasoning for your number."
  let routing_note :=
    "For EACH expanded query, also identify the most likely CONTENT TYPE / FORMAT the routing system would prefer " ++
    "for retrieval and synthesis (e.g., a how-to should route to 'how_to_steps' or a video transcript; comparisons to 'comparison_table' or 'buyers_guide'). " ++
    "Choose exactly ONE label from this fixed list:\n" ++
    strJoin ", " ALLOWED_FORMATS ++
    ".\nReturn it in a field named 'routing_format' and give a short 'format_reason' (1 sentence)."
  "You are simulating Google's AI Mode query fan-out for generative search systems.\n" ++
  "The user's original query is: \"" ++ q ++ "\". The selected mode is: \"" ++ mode ++ "\".\n\n" ++
  "Your first task is to determine the total number of queries to generate and the reasoning for this number:\n" ++
  num_queries_instruction ++ "\n\n" ++
  "Once you have decided on the number and the reasoning, generate exactly that many unique synthetic queries.\n" ++
  "Each of the following transformation types MUST be represented at least once, if the total allows:\n" ++
  "1. Reformulations\n2. Related Queries\n3. Implicit Queries\n4. Comparative Queries\n5. Entity Expansions\n6. Personalized Queries\n\n" ++
  "The 'reasoning' field for each query should explain why that query was generated (tie it to the original query, its type, and user intent). " ++
  "Do NOT include queries dependent on real-time user history or geolocation.\n\n" ++
  routing_note ++ "\n\n" ++
  "Return only a valid JSON object in this exact schema:\n" ++
  "\x7b\n" ++
  "  \"generation_details\": \x7b\n" ++
  "    \"target_query_count\": 12,\n" ++
  "    \"reasoning_for_count\": \"...\"\n" ++
  "  \x7d,\n" ++
  "  \"expanded_queries\": [\n" ++
  "    \x7b\n" ++
  "      \"query\": \"...\",\n" ++
  "      \"type\": \"reformulation | related | implicit | comparative | entity_expansion | personalized\",\n" ++
  "      \"user_intent\": \"...\",\n" ++
  "      \"reasoning\": \"...\",\n" ++
  "      \"routing_format\": \"one_of_allowed_labels\",\n" ++
  "      \"format_reason\": \"one sentence why this format is best\"\n" ++
  "    \x7d\n" ++
  "  ]\n" ++
  "\x7d"

/-- `QUERY_FANOUT_PROMPT` of `howden-query-fan-out-single.py`. -/
def QUERY_FANOUT_PROMPT_single (q mode : String) : String :=
  let min_queries_simple : Nat := 10
  let min_queries_complex : Nat := 20
  let num_queries_instruction :=
    if mode = "AI Overview (simple)" then
      "Analyze the user's query: \"" ++ q ++ "\". Based on '" ++ mode ++
      "', decide an optimal number of queries (≥" ++ toString min_queries_simple ++ "). " ++
      "For simple queries, " ++ toString min_queries_simple ++ "-" ++
      toString (min_queries_simple + 5) ++
      " queries may suffice. Provide reasoning for your choice."
    else
      "Analyze the user's query: \"" ++ q ++ "\". Based on '" ++ mode ++
      "', decide an optimal number of queries (≥" ++ toString min_queries_complex ++ "). " ++
      "For complex queries, " ++ toString (min_queries_complex + 5) ++ "-" ++
      toString (min_queries_complex + 10) ++
      " queries or more may be needed. Provide reasoning."
  "You are simulating Google's AI Mode query fan-out process.\n" ++
  "Original query: \"" ++ q ++ "\". Mode: \"" ++ mode ++ "\".\n\n" ++
  num_queries_instruction ++ "\n\n" ++
  "Generate exactly that many unique queries in JSON format:\n" ++
  "\x7b\n" ++
  "  \"generation_details\": \x7b\n" ++
  "    \"target_query_count\": <number>,\n" ++
  "    \"reasoning_for_count\": \"<reasoning>\"\n" ++
  "  \x7d,\n" ++
  "  \"expanded_queries\": [\n" ++
  "    \x7b\"query\": \"...\", \"type\": \"...\", \"user_intent\": \"...\", \"reasoning\": \"...\"\x7d\n" ++
  "  ]\n" ++
  "\x7d"

/-- The two search modes offered by both sidebars. -/
inductive Mode where
  | simple : Mode
  | complex : Mode

/-- The radio label sent into the prompt builders. -/
def modeStr : Mode → String
  | .simple => "AI Overview (simple)"
  | .complex => "AI Mode (complex)"

/-- The mode-specific minimum-count token of the claims. -/
def minTok : Mode → String
  | .simple => "10"
  | .complex => "20"

/-! ## Response parsing (`generate_fanout`) -/

/-- The fence-stripping of both `generate_fanout` functions:
`response.text.strip()`, drop a leading fence only on `startswith("```json")`
(7 characters), drop a trailing fence on `endswith("```")`, strip again. -/
def cleanText (respText : String) : String :=
  let t0 := pyStrip respText
  let t1 := if pyStartswith t0 "```json" then strDrop t0 7 else t0
  let t2 := if pyEndswith t1 "```" then strDropRight t1 3 else t1
  pyStrip t2

/-- Field extraction shared verbatim by both variants:
`data.get("generation_details", {})` and `data.get("expanded_queries", [])`. -/
def extractFields (data : Json) : Except PyExc (Json × Json) :=
  match pyDictGet data "generation_details" (Json.obj []) with
  | .error e => .error e
  | .ok gd =>
    match pyDictGet data "expanded_queries" (Json.arr []) with
    | .error e => .error e
    | .ok eqs => .ok (gd, eqs)

/-- `generate_fanout` of the bulk variant after the model call: clean the
fences, `json.loads`, extract the two fields, and return them together with
the cleaned `json_text`. -/
def parsePipeline (respText : String) : Except PyExc (Json × Json × String) :=
  let t := cleanText respText
  match json_loads t with
  | .error e => .error (.jsonDecode e.msg t e.pos)
  | .ok data =>
    match extractFields data with
    | .error e => .error e
    | .ok (gd, eqs) => .ok (gd, eqs, t)

/-- `generate_fanout(query, mode)` of the bulk variant, parametrised by the
generation client `gen` (the `model.generate_content(...).text` call, the
only external dependency). -/
def generate_fanout (gen : String → Except PyExc String) (q mode : String) :
    Except PyExc (Json × Json × String) :=
  match gen (QUERY_FANOUT_PROMPT q mode) with
  | .error e => .error e
  | .ok respText => parsePipeline respText

/-! ## The bulk "Run Fan-Out" batch loop -/

/-- A pandas row or run-summary entry, as the Python dict literal built in
the loop (keys in insertion order). -/
abbrev Row := List (String × Json)

/-- The error record `{"lookup_query": q, "error": str(e)}`. -/
structure ErrRec where
  lookup_query : String
  error : String

/-- `preferred_cols` of the bulk variant. -/
def preferred_cols : List String :=
  ["lookup_query", "query", "type", "user_intent", "reasoning",
   "routing_format", "format_reason"]

/-- One flattened row: every sub-field is fetched with `obj.get(key, "")`;
a non-dict element raises `AttributeError` like Python. -/
def flattenRow (q : String) (obj : Json) : Except PyExc Row :=
  match obj with
  | .obj kvs => .ok
      [("lookup_query", .str q),
       ("query", dGet kvs "query" (.str "")),
       ("type", dGet kvs "type" (.str "")),
       ("user_intent", dGet kvs "user_intent" (.str "")),
       ("reasoning", dGet kvs "reasoning" (.str "")),
       ("routing_format", dGet kvs "routing_format" (.str "")),
       ("format_reason", dGet kvs "format_reason" (.str ""))]
  | _ => .error (.attrError ("'" ++ typeName obj ++ "' object has no attribute 'get'"))

/-- The `for obj in expanded` append loop with Python list semantics: rows
appended before an exception survive it. -/
def flattenPartial (q : String) : List Json → List Row × Option PyExc
  | [] => ([], none)
  | o :: os =>
    match flattenRow q o with
    | .ok r =>
      let res := flattenPartial q os
      (r :: res.1, res.2)
    | .error e => ([], some e)

/-- The run-summary dict literal of the bulk loop. -/
def summaryRow (q : String) (tq rc : Json) : Row :=
  [("lookup_query", .str q), ("target_query_count", tq),
   ("reasoning_for_count", rc)]

/-- The `status.write` line of a successful lookup. -/
def okStatusMsg (q : String) (n : Nat) : String :=
  "✅ Processed: **" ++ q ++ "** — generated " ++ toString n ++ " queries."

/-- The `status.write` line of the two `except` arms. -/
def errStatusMsg (e : PyExc) (q : String) : String :=
  match e with
  | .jsonDecode _ _ _ => "❌ JSON parse failed for '" ++ q ++ "': " ++ pyExcStr e
  | _ => "❌ Error for '" ++ q ++ "': " ++ pyExcStr e

/-- What one iteration of the batch loop appends to `all_rows`,
`run_summaries`, `errors` and the status stream. -/
structure ItemOut where
  rows : List Row
  summaries : List Row
  errors : List ErrRec
  status : List String

/-- One iteration of the bulk `for i, q in enumerate(lookups)` body: any
exception in the `try` block is caught, appends `{"lookup_query": q,
"error": str(e)}`, and mutations made before the exception survive.  The
summary dict is appended only after both `details.get` calls succeed;
`len(expanded)` in the status line equals the number of iterated
elements. -/
def processItem (gen : String → Except PyExc String) (mode q : String) : ItemOut :=
  match generate_fanout gen q mode with
  | .error e => ⟨[], [], [⟨q, pyExcStr e⟩], [errStatusMsg e q]⟩
  | .ok (details, expanded, _raw) =>
    match pyDictGet details "target_query_count" Json.null with
    | .error e => ⟨[], [], [⟨q, pyExcStr e⟩], [errStatusMsg e q]⟩
    | .ok tq =>
      match pyDictGet details "reasoning_for_count" (Json.str "") with
      | .error e => ⟨[], [], [⟨q, pyExcStr e⟩], [errStatusMsg e q]⟩
      | .ok rc =>
        match pyIterElems expanded with
        | .error e => ⟨[], [summaryRow q tq rc], [⟨q, pyExcStr e⟩], [errStatusMsg e q]⟩
        | .ok objs =>
          match flattenPartial q objs with
          | (rows, some e) =>
            ⟨rows, [summaryRow q tq rc], [⟨q, pyExcStr e⟩], [errStatusMsg e q]⟩
          | (rows, none) =>
            ⟨rows, [summaryRow q tq rc], [], [okStatusMsg q objs.length]⟩

/-- Concatenation of per-item appends (the lists are only ever appended
to). -/
def combineOut (a b : ItemOut) : ItemOut :=
  ⟨a.rows ++ b.rows, a.summaries ++ b.summaries, a.errors ++ b.errors,
   a.status ++ b.status⟩

/-- The whole batch loop over the lookup list. -/
def runItems (gen : String → Except PyExc String) (mode : String)
    (lookups : List String) : ItemOut :=
  lookups.foldl (fun acc q => combineOut acc (processItem gen mode q)) ⟨[], [], [], []⟩

/-- The batch outcome: the four accumulated lists plus the post-loop
warning `"No synthetic queries were generated."` shown when `all_rows` is
empty. -/
structure BatchOut where
  all_rows : List Row
  run_summaries : List Row
  errors : List ErrRec
  status : List String
  warnings : List String

/-- `runBatch`: the loop plus the post-loop presentation decision. -/
def runBatch (gen : String → Except PyExc String) (mode : String)
    (lookups : List String) : BatchOut :=
  let it := runItems gen mode lookups
  ⟨it.rows, it.summaries, it.errors, it.status,
   if it.rows.isEmpty then ["No synthetic queries were generated."] else []⟩

/-- The "Run Fan-Out" click handler: warn and stop on an empty lookup list,
otherwise run the batch. -/
inductive HandlerOut where
  | warned : String → HandlerOut
  | ran : BatchOut → HandlerOut

/-- The bulk handler given an already-built lookup list. -/
def runHandler (gen : String → Except PyExc String) (mode : String)
    (lookups : List String) : HandlerOut :=
  if lookups.isEmpty then .warned "⚠️ Please provide at least one query."
  else .ran (runBatch gen mode lookups)

/-- Lookup-list construction in bulk mode:
`[q.strip() for q in bulk_text.splitlines() if q.strip()]`. -/
def mkLookupsBulk (bulk : String) : List String :=
  (pySplitlines bulk).filterMap fun q =>
    if pyStrip q = "" then none else some (pyStrip q)

/-- Lookup-list construction in single-query input mode:
`[user_query.strip()] if user_query.strip() else []`. -/
def mkLookupsSingle (uq : String) : List String :=
  if pyStrip uq = "" then [] else [pyStrip uq]

/-- The bulk handler from the raw multi-line input. -/
def runHandlerBulk (gen : String → Except PyExc String) (mode bulk : String) :
    HandlerOut :=
  runHandler gen mode (mkLookupsBulk bulk)

/-- `df.columns` for a frame built from a list of dicts: keys in
first-appearance order. -/
def dfColumns (rows : List Row) : List String :=
  rows.foldl
    (fun acc r =>
      r.foldl (fun acc2 kv => if acc2.contains kv.1 then acc2 else acc2 ++ [kv.1]) acc)
    []

/-- The column reorder of the bulk variant: `existing` preferred columns
first, `others` after, both preserving their source order. -/
def reorderCols (cols : List String) : List String :=
  let existing := preferred_cols.filter fun c => cols.contains c
  let others := cols.filter fun c => !existing.contains c
  existing ++ others

/-! ## The single-query variant -/

/-- What `generate_fanout` of the single variant leaves behind: messages
shown (`st.error` / `st.text`), the session `generation_details`, and the
returned value (`None` on any caught failure). -/
structure SingleGenOut where
  shown : List String
  details : Option Json
  result : Option Json

/-- `generate_fanout` of `howden-query-fan-out-single.py`: the whole body
is inside `try`, a `json.JSONDecodeError` is answered with an error banner
and the fence-stripped text, any other exception with a generic banner;
`st.session_state.generation_details` is assigned only on full success. -/
def generate_fanout_single (gen : String → Except PyExc String)
    (q mode : String) : SingleGenOut :=
  match gen (QUERY_FANOUT_PROMPT_single q mode) with
  | .error e => ⟨["Unexpected error during generation: " ++ pyExcStr e], none, none⟩
  | .ok respText =>
    let t := cleanText respText
    match json_loads t with
    | .error _ => ⟨["Failed to parse Gemini response as JSON.", "Raw response:", t], none, none⟩
    | .ok data =>
      match extractFields data with
      | .error e => ⟨["Unexpected error during generation: " ++ pyExcStr e], none, none⟩
      | .ok (gd, eqs) => ⟨[], some gd, some eqs⟩

/-- Outcome of the single variant's "Run Fan-Out" handler, modelled through
the mismatch warning (line 123); the dataframe rendering below it is
presentation only. -/
inductive SingleRes where
  | warnedEmpty : SingleRes
  | noResults : SingleRes
  | completed : Option String → List String → SingleRes

/-- The single variant's click handler: blank-query warning, the `if
results:` truthiness test, `details = st.session_state.generation_details
or {}`, and the `isinstance(target_count, int)` mismatch warning.
Exceptions here are uncaught (the handler has no `try`), hence the
`Except`. -/
def runSingleHandler (gen : String → Except PyExc String) (uq mode : String) :
    Except PyExc SingleRes :=
  if pyStrip uq = "" then .ok .warnedEmpty
  else
    let so := generate_fanout_single gen uq mode
    match so.result with
    | none => .ok .noResults
    | some res =>
      if pyTruthy res then
        let details :=
          match so.details with
          | some d => if pyTruthy d then d else Json.obj []
          | none => Json.obj []
        match pyLen res with
        | .error e => .error e
        | .ok generated_count =>
          match pyDictGet details "target_query_count" (Json.str "N/A") with
          | .error e => .error e
          | .ok target_count =>
            match pyDictGet details "reasoning_for_count" (Json.str "Not provided.") with
            | .error e => .error e
            | .ok _reasoning =>
              let warn :=
                if pyIsInstanceInt target_count &&
                    pyIntVal target_count != Int.ofNat generated_count then
                  some ("Model aimed for " ++ pyStrInt target_count ++
                    " queries but generated " ++ toString generated_count ++ ".")
                else none
              .ok (.completed warn so.shown)
      else .ok .noResults

/-! ## Containment of one string in another -/

/-- `sub` occurs inside `s`. -/
def StrContains (s sub : String) : Prop := ∃ l r, s = l ++ sub ++ r

/-- Executable containment check on the character lists. -/
def strContainsB (s sub : String) : Bool :=
  s.data.tails.any fun t => sub.data.isPrefixOf t

/-- Modelled from the spec: "the mismatch is flagged (e.g., a boolean
`countMismatch = true` or equivalent signal) in the returned summary" /
"surfaced (flagged as a warning or made available in the returned plan
summary)".  For the batch outcome this means a warning was shown, or some
run-summary dict carries a signal beyond the three plain recorded fields. -/
def mismatchSurfacedSpec (out : BatchOut) : Prop :=
  out.warnings ≠ [] ∨
  ∃ r ∈ out.run_summaries, ∃ kv ∈ r,
    kv.1 ∉ (["lookup_query", "target_query_count", "reasoning_for_count"] : List String)

/-- A model reply used as a concrete test input: an integer target of 12
with a single produced query. -/
def mismatchDoc : String :=
  "\x7b\"generation_details\": \x7b\"target_query_count\": 12\x7d, " ++
  "\"expanded_queries\": [\x7b\"query\": \"x\"\x7d]\x7d"

end QFanOut

namespace QFanOut

/-! ## Supporting lemmas: strings and stripping -/

theorem strAppendAssoc (a b c : String) : a ++ b ++ c = a ++ (b ++ c) := by
  apply String.ext
  simp [String.data_append, List.append_assoc]

theorem head?_dropWhile_false (p : Char → Bool) :
    ∀ l : List Char, ∀ c, (l.dropWhile p).head? = some c → p c = false := by
  intro l
  induction l with
  | nil => intro c h; simp [List.dropWhile] at h
  | cons a l ih =>
    intro c h
    by_cases hp : p a
    · rw [List.dropWhile_cons, if_pos hp] at h
      exact ih c h
    · rw [List.dropWhile_cons, if_neg hp] at h
      simp only [List.head?_cons, Option.some.injEq] at h
      rw [← h]
      exact Bool.eq_false_iff.mpr hp

theorem stripList_cons_space {c : Char} (h : pyIsSpace c = true) (l : List Char) :
    stripList (c :: l) = stripList l := by
  simp [stripList, List.dropWhile_cons, h]

theorem stripList_append_space {c : Char} (h : pyIsSpace c = true) (l : List Char) :
    stripList (l ++ [c]) = stripList l := by
  simp only [stripList]
  rw [List.dropWhile_append]
  by_cases he : (l.dropWhile pyIsSpace).isEmpty
  · rw [if_pos he]
    have hl : l.dropWhile pyIsSpace = [] := by
      rwa [List.isEmpty_iff] at he
    simp [List.dropWhile_cons, h, hl, List.dropWhile_nil]
  · rw [if_neg he]
    rw [List.reverse_append]
    simp [List.dropWhile_cons, h]

theorem stripList_eq_self {l : List Char}
    (h1 : ∀ c, l.head? = some c → pyIsSpace c = false)
    (h2 : ∀ c, l.getLast? = some c → pyIsSpace c = false) :
    stripList l = l := by
  cases l with
  | nil => rfl
  | cons a l' =>
    have ha : pyIsSpace a = false := h1 a rfl
    have hdrop : (a :: l').dropWhile pyIsSpace = a :: l' := by
      rw [List.dropWhile_cons, if_neg (by simp [ha])]
    simp only [stripList, hdrop]
    cases hrv : (a :: l').reverse with
    | nil => exact absurd (congrArg List.length hrv) (by simp)
    | cons x xs =>
      have hx : (a :: l').getLast? = some x := by
        rw [← List.head?_reverse, hrv, List.head?_cons]
      have hxs : pyIsSpace x = false := h2 x hx
      rw [List.dropWhile_cons, if_neg (by simp [hxs]), ← hrv, List.reverse_reverse]

theorem stripList_head_false (l : List Char) :
    ∀ c, (stripList l).head? = some c → pyIsSpace c = false := by
  intro c h
  simp only [stripList] at h
  set X := l.dropWhile pyIsSpace with hX
  set Z := X.reverse.dropWhile pyIsSpace with hZ
  rw [List.head?_reverse] at h
  have hsuf : Z <:+ X.reverse := List.dropWhile_suffix pyIsSpace
  obtain ⟨w, hw⟩ := hsuf
  have hzne : Z ≠ [] := by
    intro hz
    rw [hz] at h
    simp at h
  have : X.reverse.getLast? = some c := by
    rw [← hw, List.getLast?_append_of_ne_nil w hzne, h]
  rw [List.getLast?_reverse] at this
  exact head?_dropWhile_false pyIsSpace l c this

theorem stripList_getLast_false (l : List Char) :
    ∀ c, (stripList l).getLast? = some c → pyIsSpace c = false := by
  intro c h
  simp only [stripList] at h
  rw [List.getLast?_reverse] at h
  exact head?_dropWhile_false pyIsSpace _ c h

theorem stripList_idem (l : List Char) : stripList (stripList l) = stripList l :=
  stripList_eq_self (stripList_head_false l) (stripList_getLast_false l)

theorem pyStrip_data (s : String) : (pyStrip s).data = stripList s.data := rfl

theorem pyStrip_idem (s : String) : pyStrip (pyStrip s) = pyStrip s := by
  apply String.ext
  exact stripList_idem s.data

theorem pyStrip_newline_left (s : String) : pyStrip ("\n" ++ s) = pyStrip s := by
  apply String.ext
  rw [pyStrip_data, pyStrip_data, String.data_append]
  exact stripList_cons_space (by decide) s.data

theorem pyStrip_newline_right (s : String) : pyStrip (s ++ "\n") = pyStrip s := by
  apply String.ext
  rw [pyStrip_data, pyStrip_data, String.data_append]
  exact stripList_append_space (by decide) s.data

theorem pyStartswith_iff (s pre : String) :
    pyStartswith s pre = true ↔ ∃ tl, s.data = pre.data ++ tl := by
  rw [pyStartswith, List.isPrefixOf_iff_prefix]
  constructor
  · rintro ⟨t, ht⟩
    exact ⟨t, ht.symm⟩
  · rintro ⟨t, ht⟩
    exact ⟨t, ht.symm⟩

theorem pyStartswith_append {s pre : String} (x : String)
    (h : pyStartswith s pre = true) : pyStartswith (s ++ x) pre = true := by
  rw [pyStartswith_iff] at h ⊢
  obtain ⟨t, ht⟩ := h
  exact ⟨t ++ x.data, by rw [String.data_append, ht, List.append_assoc]⟩

theorem pyEndswith_iff (s suf : String) :
    pyEndswith s suf = true ↔ ∃ pre, s.data = pre ++ suf.data := by
  rw [pyEndswith, List.isPrefixOf_iff_prefix]
  constructor
  · rintro ⟨t, ht⟩
    refine ⟨t.reverse, ?_⟩
    have := congrArg List.reverse ht
    simpa [List.reverse_append] using this.symm
  · rintro ⟨pre, hp⟩
    exact ⟨pre.reverse, by rw [hp]; simp [List.reverse_append]⟩

theorem pyEndswith_append_left {s suf : String} (x : String)
    (h : pyEndswith s suf = true) : pyEndswith (x ++ s) suf = true := by
  rw [pyEndswith_iff] at h ⊢
  obtain ⟨pre, hp⟩ := h
  exact ⟨x.data ++ pre, by rw [String.data_append, hp, List.append_assoc]⟩

theorem pyStartswith_fence3 {s : String} (h : pyStartswith s "```" = true) :
    ∃ tl, s.data = bq :: bq :: bq :: tl := by
  rw [pyStartswith_iff] at h
  obtain ⟨tl, ht⟩ := h
  exact ⟨tl, ht⟩

theorem pyEndswith_fence3 {s : String} (h : pyEndswith s "```" = true) :
    s.data.getLast? = some bq := by
  rw [pyEndswith_iff] at h
  obtain ⟨pre, hp⟩ := h
  rw [hp]
  have : pre ++ "```".data = (pre ++ [bq, bq]) ++ [bq] := by
    simp [bq, List.append_assoc]
  rw [this, List.getLast?_concat]

theorem skipWs_split (cs : List Char) (p : Nat) :
    ∃ w, cs = w ++ (skipWs cs p).1 ∧ ∀ c ∈ w, jsonWs c = true := by
  induction cs generalizing p with
  | nil => exact ⟨[], rfl, by simp⟩
  | cons c r ih =>
    by_cases hc : jsonWs c
    · obtain ⟨w, hw, hall⟩ := ih (p + 1)
      refine ⟨c :: w, ?_, ?_⟩
      · rw [skipWs, if_pos hc, List.cons_append, ← hw]
      · intro a ha
        rcases List.mem_cons.mp ha with h1 | h2
        · rwa [h1]
        · exact hall a h2
    · refine ⟨[], ?_, by simp⟩
      rw [skipWs, if_neg hc]
      rfl

theorem skipWs_no_skip {cs : List Char} (p : Nat)
    (h : ∀ c, cs.head? = some c → jsonWs c = false) : skipWs cs p = (cs, p) := by
  cases cs with
  | nil => rfl
  | cons a r =>
    rw [skipWs, if_neg]
    simp [h a rfl]

end QFanOut

namespace QFanOut

/-! ## Supporting lemmas: the scanner consumes up to a closing delimiter -/

theorem scanStringTail_split :
    ∀ (fuel bg : Nat) (cs : List Char) (p : Nat) (acc : List Char) s r p2,
      scanStringTail fuel bg cs p acc = .ok (s, r, p2) → ∃ l, cs = l ++ '"' :: r := by
  intro fuel
  induction fuel with
  | zero => intro bg cs p acc s r p2 h; simp [scanStringTail] at h
  | succ fuel ih =>
    intro bg cs p acc s r p2 h
    cases cs with
    | nil => simp [scanStringTail] at h
    | cons c cs1 =>
      simp only [scanStringTail] at h
      by_cases h1 : c = '"'
      · rw [if_pos h1] at h
        simp only [Except.ok.injEq, Prod.mk.injEq] at h
        exact ⟨[], by simp [h1, h.2.1]⟩
      · rw [if_neg h1] at h
        by_cases h2 : c = '\\'
        · rw [if_pos h2] at h
          cases cs1 with
          | nil => simp at h
          | cons e cs2 =>
            dsimp only at h
            by_cases h3 : e = 'u'
            · rw [if_pos h3] at h
              cases cs2 with
              | nil => simp at h
              | cons a1 t1 =>
                cases t1 with
                | nil => simp at h
                | cons a2 t2 =>
                  cases t2 with
                  | nil => simp at h
                  | cons a3 t3 =>
                    cases t3 with
                    | nil => simp at h
                    | cons a4 cs3 =>
                      dsimp only at h
                      cases hv1 : hexVal a1 with
                      | none => simp [hv1] at h
                      | some y1 =>
                        cases hv2 : hexVal a2 with
                        | none => simp [hv1, hv2] at h
                        | some y2 =>
                          cases hv3 : hexVal a3 with
                          | none => simp [hv1, hv2, hv3] at h
                          | some y3 =>
                            cases hv4 : hexVal a4 with
                            | none => simp [hv1, hv2, hv3, hv4] at h
                            | some y4 =>
                              simp only [hv1, hv2, hv3, hv4] at h
                              split at h
                              · -- surrogate range: inspect cs3 for a second escape
                                split at h
                                · next k1 k2 k3 k4 cs5 =>
                                  cases hw1 : hexVal k1 with
                                  | none => simp [hw1] at h
                                  | some z1 =>
                                    cases hw2 : hexVal k2 with
                                    | none => simp [hw1, hw2] at h
                                    | some z2 =>
                                      cases hw3 : hexVal k3 with
                                      | none => simp [hw1, hw2, hw3] at h
                                      | some z3 =>
                                        cases hw4 : hexVal k4 with
                                        | none => simp [hw1, hw2, hw3, hw4] at h
                                        | some z4 =>
                                          simp only [hw1, hw2, hw3, hw4] at h
                                          split at h
                                          · obtain ⟨l, hl⟩ := ih _ _ _ _ _ _ _ h
                                            refine ⟨c :: e :: a1 :: a2 :: a3 :: a4 :: '\\' :: 'u' :: k1 :: k2 :: k3 :: k4 :: l, ?_⟩
                                            simp [hl]
                                          · obtain ⟨l, hl⟩ := ih _ _ _ _ _ _ _ h
                                            refine ⟨c :: e :: a1 :: a2 :: a3 :: a4 :: l, ?_⟩
                                            simp [hl]
                                · obtain ⟨l, hl⟩ := ih _ _ _ _ _ _ _ h
                                  refine ⟨c :: e :: a1 :: a2 :: a3 :: a4 :: l, ?_⟩
                                  simp [hl]
                              · obtain ⟨l, hl⟩ := ih _ _ _ _ _ _ _ h
                                refine ⟨c :: e :: a1 :: a2 :: a3 :: a4 :: l, ?_⟩
                                simp [hl]
            · rw [if_neg h3] at h
              cases he : escChar? e with
              | none => simp [he] at h
              | some ch =>
                rw [he] at h
                obtain ⟨l, hl⟩ := ih _ _ _ _ _ _ _ h
                exact ⟨c :: e :: l, by simp [hl]⟩
        · rw [if_neg h2] at h
          by_cases h4 : c.toNat < 0x20
          · rw [if_pos h4] at h
            simp at h
          · rw [if_neg h4] at h
            obtain ⟨l, hl⟩ := ih _ _ _ _ _ _ _ h
            exact ⟨c :: l, by simp [hl]⟩

end QFanOut

namespace QFanOut

theorem isDigit_of_one_nine {c : Char}
    (h : (decide ('1' ≤ c) && decide (c ≤ '9')) = true) : c.isDigit = true := by
  rw [Bool.and_eq_true, decide_eq_true_eq, decide_eq_true_eq] at h
  have h0 : '0' ≤ c := le_trans (by decide) h.1
  simp only [Char.isDigit, Bool.and_eq_true, decide_eq_true_eq]
  exact ⟨h0, h.2⟩

theorem isDigit_ne_bq {c : Char} (h : c.isDigit = true) : c ≠ bq := by
  intro he
  rw [he] at h
  exact absurd h (by decide)

theorem takeWhile_last_digit {l t : List Char} (c : Char)
    (hc : c.isDigit = true) (ht : l.takeWhile Char.isDigit = t) :
    ∃ pre d, c :: t = pre ++ [d] ∧ d.isDigit = true := by
  cases t with
  | nil => exact ⟨[], c, rfl, hc⟩
  | cons d0 t0 =>
    have hne : (c :: d0 :: t0 : List Char) ≠ [] := by simp
    refine ⟨(c :: d0 :: t0).dropLast, (c :: d0 :: t0).getLast hne, ?_, ?_⟩
    · rw [List.dropLast_append_getLast]
    · have hmem : (c :: d0 :: t0).getLast hne ∈ c :: d0 :: t0 := List.getLast_mem hne
      rcases List.mem_cons.mp hmem with h1 | h2
      · rwa [h1]
      · have : (c :: d0 :: t0).getLast hne ∈ l.takeWhile Char.isDigit := by
          rw [ht]; exact h2
        exact List.mem_takeWhile_imp this

theorem scanIntPart_split {cs ip r : List Char} (h : scanIntPart cs = some (ip, r)) :
    cs = ip ++ r ∧ ∃ pre d, ip = pre ++ [d] ∧ d.isDigit = true := by
  cases cs with
  | nil => simp [scanIntPart] at h
  | cons c r1 =>
    by_cases hc : c = '0'
    · subst hc
      dsimp only [scanIntPart] at h
      simp only [Option.some.injEq, Prod.mk.injEq] at h
      obtain ⟨h1, h2⟩ := h
      exact ⟨by simp [← h1, ← h2], [], '0', by simp [← h1], by decide⟩
    · rw [scanIntPart.eq_def] at h
      split at h
      · next heq =>
        rw [List.cons.injEq] at heq
        exact absurd heq.1 hc
      · next c2 r2 heq =>
        injection heq with hceq hreq
        subst hceq
        subst hreq
        split at h
        · next hd =>
          simp only [Option.some.injEq, Prod.mk.injEq] at h
          obtain ⟨h1, h2⟩ := h
          refine ⟨?_, ?_⟩
          · rw [← h1, ← h2]
            simp [List.takeWhile_append_dropWhile]
          · rw [← h1]
            exact takeWhile_last_digit c (isDigit_of_one_nine hd) rfl
        · exact absurd h (by simp)
      · exact absurd h (by simp)

theorem scanFrac_split {cs fp r : List Char} (h : scanFrac cs = some (fp, r)) :
    cs = fp ++ r ∧ ∃ pre d, fp = pre ++ [d] ∧ d.isDigit = true := by
  rw [scanFrac.eq_def] at h
  split at h
  · next d0 r0 =>
    split at h
    · next hd =>
      simp only [Option.some.injEq, Prod.mk.injEq] at h
      obtain ⟨h1, h2⟩ := h
      constructor
      · rw [← h1, ← h2]
        simp [List.takeWhile_append_dropWhile]
      · rw [← h1]
        obtain ⟨pre, d, hpd, hdig⟩ := takeWhile_last_digit d0 hd (rfl : r0.takeWhile Char.isDigit = _)
        exact ⟨'.' :: pre, d, by rw [List.cons_append, ← hpd], hdig⟩
    · exact absurd h (by simp)
  · exact absurd h (by simp)

theorem scanExpPart_split {cs ep r : List Char} (h : scanExpPart cs = some (ep, r)) :
    cs = ep ++ r ∧ ∃ pre d, ep = pre ++ [d] ∧ d.isDigit = true := by
  rw [scanExpPart.eq_def] at h
  split at h
  · next e rest =>
    split at h
    · next he =>
      split at h
      · next c r0 =>
        split at h
        · next hc =>
          split at h
          · next d r1 =>
            split at h
            · next hd =>
              simp only [Option.some.injEq, Prod.mk.injEq] at h
              obtain ⟨h1, h2⟩ := h
              constructor
              · rw [← h1, ← h2]
                simp [List.takeWhile_append_dropWhile]
              · rw [← h1]
                obtain ⟨pre, dd, hpd, hdig⟩ :=
                  takeWhile_last_digit d hd (rfl : r1.takeWhile Char.isDigit = _)
                exact ⟨e :: c :: pre, dd,
                  by rw [List.cons_append, List.cons_append, ← hpd], hdig⟩
            · exact absurd h (by simp)
          · exact absurd h (by simp)
        · split at h
          · next hc2 =>
            simp only [Option.some.injEq, Prod.mk.injEq] at h
            obtain ⟨h1, h2⟩ := h
            constructor
            · rw [← h1, ← h2]
              simp [List.takeWhile_append_dropWhile]
            · rw [← h1]
              obtain ⟨pre, dd, hpd, hdig⟩ :=
                takeWhile_last_digit c hc2 (rfl : r0.takeWhile Char.isDigit = _)
              exact ⟨e :: pre, dd, by rw [List.cons_append, ← hpd], hdig⟩
          · exact absurd h (by simp)
      · exact absurd h (by simp)
    · exact absurd h (by simp)
  · exact absurd h (by simp)

theorem scanNumber_split {cs : List Char} {p : Nat} {v : Json} {r : List Char} {p2 : Nat}
    (h : scanNumber cs p = some (v, r, p2)) :
    ∃ l c, cs = l ++ c :: r ∧ c.isDigit = true := by
  have main : ∀ (sgn X : List Char), cs = sgn ++ X →
      (match scanIntPart X with
        | none => none
        | some (ip, r1) =>
          let fpr2 := (scanFrac r1).getD ([], r1)
          let epr3 := (scanExpPart fpr2.2).getD ([], fpr2.2)
          let consumed := sgn ++ ip ++ fpr2.1 ++ epr3.1
          if fpr2.1.isEmpty && epr3.1.isEmpty then
            let n : Int := Int.ofNat (digitsToNat ip)
            some (Json.jint (if sgn.isEmpty then n else -n), epr3.2, p + consumed.length)
          else
            some (.jfloat ⟨consumed⟩, epr3.2, p + consumed.length) :
        Option (Json × List Char × Nat)) = some (v, r, p2) →
      ∃ l c, cs = l ++ c :: r ∧ c.isDigit = true := by
    intro sgn X hcs hm
    split at hm
    · exact absurd hm (by simp)
    · next ip r1 hip =>
      obtain ⟨hX, pre0, d0, hip0, hdig0⟩ := scanIntPart_split hip
      cases hf : scanFrac r1 with
      | none =>
        simp only [hf, Option.getD] at hm
        cases he : scanExpPart r1 with
        | none =>
          simp only [he, Option.getD, List.isEmpty_nil, Bool.and_self, if_true,
            Option.some.injEq, Prod.mk.injEq] at hm
          obtain ⟨_, hr, _⟩ := hm
          refine ⟨sgn ++ pre0, d0, ?_, hdig0⟩
          rw [hcs, hX, hip0, ← hr]
          simp [List.append_assoc]
        | some pr =>
          rcases pr with ⟨ep, re⟩
          simp only [he, Option.getD] at hm
          obtain ⟨hr1, pre1, d1, hep, hdig1⟩ := scanExpPart_split he
          split at hm
          · next hemp =>
            exfalso
            rw [hep] at hemp
            simp at hemp
          · simp only [Option.some.injEq, Prod.mk.injEq] at hm
            obtain ⟨_, hr, _⟩ := hm
            refine ⟨sgn ++ ip ++ pre1, d1, ?_, hdig1⟩
            rw [hcs, hX, hr1, hep, ← hr]
            simp [List.append_assoc]
      | some prf =>
        rcases prf with ⟨fp, rf⟩
        simp only [hf, Option.getD] at hm
        obtain ⟨hr1, pre1, d1, hfp, hdig1⟩ := scanFrac_split hf
        cases he : scanExpPart rf with
        | none =>
          simp only [he, Option.getD] at hm
          split at hm
          · next hemp =>
            exfalso
            rw [hfp] at hemp
            simp at hemp
          · simp only [Option.some.injEq, Prod.mk.injEq] at hm
            obtain ⟨_, hr, _⟩ := hm
            refine ⟨sgn ++ ip ++ pre1, d1, ?_, hdig1⟩
            rw [hcs, hX, hr1, hfp, ← hr]
            simp [List.append_assoc]
        | some pre2 =>
          rcases pre2 with ⟨ep, re⟩
          simp only [he, Option.getD] at hm
          obtain ⟨hrf, pre2, d2, hep, hdig2⟩ := scanExpPart_split he
          split at hm
          · next hemp =>
            exfalso
            rw [hfp] at hemp
            simp at hemp
          · simp only [Option.some.injEq, Prod.mk.injEq] at hm
            obtain ⟨_, hr, _⟩ := hm
            refine ⟨sgn ++ ip ++ fp ++ pre2, d2, ?_, hdig2⟩
            rw [hcs, hX, hr1, hrf, hep, ← hr]
            simp [List.append_assoc]
  by_cases hneg : cs.head? = some '-'
  · obtain ⟨t, ht⟩ : ∃ t, cs = '-' :: t := by
      cases cs with
      | nil => simp at hneg
      | cons a b =>
        simp only [List.head?_cons, Option.some.injEq] at hneg
        exact ⟨b, by rw [hneg]⟩
    rw [scanNumber] at h
    rw [if_pos hneg, if_pos hneg] at h
    exact main ['-'] cs.tail (by rw [ht]; rfl) h
  · rw [scanNumber] at h
    rw [if_neg hneg, if_neg hneg] at h
    exact main [] cs (by rfl) h

end QFanOut

namespace QFanOut

theorem scan_split : ∀ fuel : Nat,
    (∀ cs p v r p2, scan fuel .value cs p = .ok (v, r, p2) →
      ∃ l c, cs = l ++ c :: r ∧ c ≠ bq) ∧
    (∀ cs p v r p2, scan fuel .oStart cs p = .ok (v, r, p2) →
      ∃ l, cs = l ++ '}' :: r) ∧
    (∀ prs cs p v r p2, scan fuel (.oRest prs) cs p = .ok (v, r, p2) →
      ∃ l, cs = l ++ '}' :: r) ∧
    (∀ cs p v r p2, scan fuel .aStart cs p = .ok (v, r, p2) →
      ∃ l, cs = l ++ ']' :: r) ∧
    (∀ vs cs p v r p2, scan fuel (.aRest vs) cs p = .ok (v, r, p2) →
      ∃ l, cs = l ++ ']' :: r) := by
  intro fuel
  induction fuel with
  | zero =>
    refine ⟨?_, ?_, ?_, ?_, ?_⟩
    · intro cs p v r p2 h; simp [scan] at h
    · intro cs p v r p2 h; simp [scan] at h
    · intro prs cs p v r p2 h; simp [scan] at h
    · intro cs p v r p2 h; simp [scan] at h
    · intro vs cs p v r p2 h; simp [scan] at h
  | succ fuel ih =>
    obtain ⟨ihv, ihos, ihor, ihas, ihar⟩ := ih
    refine ⟨?_, ?_, ?_, ?_, ?_⟩
    · -- `.value`
      intro cs p v r p2 h
      simp only [scan] at h
      split at h
      · -- string
        split at h
        · next s' r' p2' hst =>
          simp only [Except.ok.injEq, Prod.mk.injEq] at h
          obtain ⟨l, hl⟩ := scanStringTail_split _ _ _ _ _ _ _ _ hst
          exact ⟨'"' :: l, '"', by simp [hl, h.2.1], by decide⟩
        · exact absurd h (by simp)
      · -- object
        next cs1 =>
        obtain ⟨l, hl⟩ := ihos _ _ _ _ _ h
        exact ⟨'{' :: l, '}', by simp [hl], by decide⟩
      · -- array
        next cs1 =>
        obtain ⟨l, hl⟩ := ihas _ _ _ _ _ h
        exact ⟨'[' :: l, ']', by simp [hl], by decide⟩
      · -- null
        next cs1 =>
        simp only [Except.ok.injEq, Prod.mk.injEq] at h
        exact ⟨['n', 'u', 'l'], 'l', by simp [h.2.1], by decide⟩
      · -- true
        next cs1 =>
        simp only [Except.ok.injEq, Prod.mk.injEq] at h
        exact ⟨['t', 'r', 'u'], 'e', by simp [h.2.1], by decide⟩
      · -- false
        next cs1 =>
        simp only [Except.ok.injEq, Prod.mk.injEq] at h
        exact ⟨['f', 'a', 'l', 's'], 'e', by simp [h.2.1], by decide⟩
      · -- number or constants
        split at h
        · next r0 hnum =>
          simp only [Except.ok.injEq] at h
          rw [h] at hnum
          obtain ⟨l, c, hl, hdig⟩ := scanNumber_split hnum
          exact ⟨l, c, hl, isDigit_ne_bq hdig⟩
        · split at h
          · next cs1 =>
            simp only [Except.ok.injEq, Prod.mk.injEq] at h
            exact ⟨['N', 'a'], 'N', by simp [h.2.1], by decide⟩
          · next cs1 =>
            simp only [Except.ok.injEq, Prod.mk.injEq] at h
            exact ⟨['I', 'n', 'f', 'i', 'n', 'i', 't'], 'y', by simp [h.2.1], by decide⟩
          · next cs1 =>
            simp only [Except.ok.injEq, Prod.mk.injEq] at h
            exact ⟨['-', 'I', 'n', 'f', 'i', 'n', 'i', 't'], 'y', by simp [h.2.1], by decide⟩
          · exact absurd h (by simp)
    · -- `.oStart`
      intro cs p v r p2 h
      simp only [scan] at h
      rcases hsw : skipWs cs p with ⟨cs1, p1⟩
      obtain ⟨w, hw, _⟩ := skipWs_split cs p
      rw [hsw] at h hw
      dsimp only at h hw
      split at h
      · next r1 =>
        simp only [Except.ok.injEq, Prod.mk.injEq] at h
        exact ⟨w, by rw [hw, h.2.1]⟩
      · next r1 =>
        obtain ⟨l, hl⟩ := ihor _ _ _ _ _ _ h
        exact ⟨w ++ '"' :: l, by rw [hw, hl]; simp⟩
      · exact absurd h (by simp)
    · -- `.oRest`
      intro prs cs p v r p2 h
      simp only [scan] at h
      split at h
      · exact absurd h (by simp)
      · next key cs2 p2' hst =>
        obtain ⟨l0, hl0⟩ := scanStringTail_split _ _ _ _ _ _ _ _ hst
        rcases hsw2 : skipWs cs2 p2' with ⟨cs3, p3⟩
        obtain ⟨w1, hw1, _⟩ := skipWs_split cs2 p2'
        rw [hsw2] at h hw1
        dsimp only at h hw1
        split at h
        · next cs4 =>
          rcases hsw3 : skipWs cs4 (p3 + 1) with ⟨cs5, p5⟩
          obtain ⟨w2, hw2, _⟩ := skipWs_split cs4 (p3 + 1)
          rw [hsw3] at h hw2
          dsimp only at h hw2
          split at h
          · exact absurd h (by simp)
          · next v1 cs6 p6 hval =>
            obtain ⟨l1, c1, hl1, _⟩ := ihv _ _ _ _ _ hval
            rcases hsw4 : skipWs cs6 p6 with ⟨cs7, p7⟩
            obtain ⟨w3, hw3, _⟩ := skipWs_split cs6 p6
            rw [hsw4] at h hw3
            dsimp only at h hw3
            split at h
            · next r1 =>
              simp only [Except.ok.injEq, Prod.mk.injEq] at h
              refine ⟨l0 ++ '"' :: w1 ++ ':' :: w2 ++ l1 ++ c1 :: w3, ?_⟩
              rw [hl0, hw1, hw2, hl1, hw3, h.2.1]
              simp [List.append_assoc]
            · next r1 =>
              rcases hsw5 : skipWs r1 (p7 + 1) with ⟨cs8, p8⟩
              obtain ⟨w4, hw4, _⟩ := skipWs_split r1 (p7 + 1)
              rw [hsw5] at h hw4
              dsimp only at h hw4
              split at h
              · next r2 =>
                obtain ⟨l2, hl2⟩ := ihor _ _ _ _ _ _ h
                refine ⟨l0 ++ '"' :: w1 ++ ':' :: w2 ++ l1 ++ c1 :: w3 ++ ',' :: w4 ++ '"' :: l2, ?_⟩
                rw [hl0, hw1, hw2, hl1, hw3, hw4, hl2]
                simp [List.append_assoc]
              · exact absurd h (by simp)
            · exact absurd h (by simp)
        · exact absurd h (by simp)
    · -- `.aStart`
      intro cs p v r p2 h
      simp only [scan] at h
      rcases hsw : skipWs cs p with ⟨cs1, p1⟩
      obtain ⟨w, hw, _⟩ := skipWs_split cs p
      rw [hsw] at h hw
      dsimp only at h hw
      split at h
      · next r1 =>
        simp only [Except.ok.injEq, Prod.mk.injEq] at h
        exact ⟨w, by rw [hw, h.2.1]⟩
      · obtain ⟨l, hl⟩ := ihar _ _ _ _ _ _ h
        exact ⟨w ++ l, by rw [hw, hl]; simp⟩
    · -- `.aRest`
      intro vs cs p v r p2 h
      simp only [scan] at h
      split at h
      · exact absurd h (by simp)
      · next v1 cs2 p2' hval =>
        obtain ⟨l1, c1, hl1, _⟩ := ihv _ _ _ _ _ hval
        rcases hsw : skipWs cs2 p2' with ⟨cs3, p3⟩
        obtain ⟨w1, hw1, _⟩ := skipWs_split cs2 p2'
        rw [hsw] at h hw1
        dsimp only at h hw1
        split at h
        · next r1 =>
          simp only [Except.ok.injEq, Prod.mk.injEq] at h
          refine ⟨l1 ++ c1 :: w1, ?_⟩
          rw [hl1, hw1, h.2.1]
          simp [List.append_assoc]
        · next r1 =>
          rcases hsw2 : skipWs r1 (p3 + 1) with ⟨cs4, p4⟩
          obtain ⟨w2, hw2, _⟩ := skipWs_split r1 (p3 + 1)
          rw [hsw2] at h hw2
          dsimp only at h hw2
          obtain ⟨l2, hl2⟩ := ihar _ _ _ _ _ _ h
          refine ⟨l1 ++ c1 :: w1 ++ ',' :: w2 ++ l2, ?_⟩
          rw [hl1, hw1, hw2, hl2]
          simp [List.append_assoc]
        · exact absurd h (by simp)

end QFanOut

namespace QFanOut

/-! ## Supporting lemmas: `json_loads` and code fences -/

theorem mem_of_getLast? {l : List Char} {x : Char} (h : l.getLast? = some x) : x ∈ l := by
  have hx : x ∈ l.getLast? := by rw [h]; rfl
  obtain ⟨hne, heq⟩ := List.mem_getLast?_eq_getLast hx
  rw [heq]
  exact List.getLast_mem hne

theorem scan_value_backtick (fuel : Nat) (rest : List Char) (p : Nat) :
    scan (fuel + 1) .value (bq :: rest) p = .error ⟨"Expecting value", p⟩ := rfl

theorem scanValue_backtick (fuel : Nat) (rest : List Char) (p : Nat) :
    scanValue (fuel + 1) (bq :: rest) p = .error ⟨"Expecting value", p⟩ := rfl

theorem json_loads_head_backtick {s : String} {t : List Char} (hs : s.data = bq :: t) :
    json_loads s = .error ⟨"Expecting value", 0⟩ := by
  have h1 : skipWs (bq :: t) 0 = (bq :: t, 0) :=
    skipWs_no_skip 0 (by
      intro c hc
      simp only [List.head?_cons, Option.some.injEq] at hc
      rw [← hc]
      decide)
  simp only [json_loads, hs, h1]
  rw [show 4 * (bq :: t).length + 8 = (4 * (bq :: t).length + 7) + 1 from rfl]
  rw [scanValue_backtick]

theorem json_loads_ok_getLast {s : String} {v : Json} (h : json_loads s = .ok v) :
    ∀ c, s.data.getLast? = some c → jsonWs c = true ∨ c ≠ bq := by
  intro c hc
  simp only [json_loads] at h
  rcases hsw : skipWs s.data 0 with ⟨cs1, p1⟩
  obtain ⟨w, hw, _⟩ := skipWs_split s.data 0
  rw [hsw] at h hw
  dsimp only at h hw
  split at h
  · exact absurd h (by simp)
  · next v1 rest p2 hscan =>
    obtain ⟨l, cmid, hl, hbq⟩ := (scan_split _).1 _ _ _ _ _ hscan
    rcases hsw2 : skipWs rest p2 with ⟨rest2, p3⟩
    obtain ⟨w2, hw2, hws2⟩ := skipWs_split rest p2
    rw [hsw2] at h hw2
    dsimp only at h hw2
    split at h
    · next hemp =>
      have hrest2 : rest2 = [] := by rwa [List.isEmpty_iff] at hemp
      rw [hrest2, List.append_nil] at hw2
      rw [hw, hl, hw2] at hc
      cases hw2e : w2 with
      | nil =>
        rw [hw2e] at hc
        rw [List.getLast?_append_of_ne_nil w (by simp),
          List.getLast?_append_of_ne_nil l (by simp)] at hc
        simp only [List.getLast?_singleton, Option.some.injEq] at hc
        exact Or.inr (by rw [← hc]; exact hbq)
      | cons x xs =>
        rw [hw2e] at hc
        rw [List.getLast?_append_of_ne_nil w (by simp),
          List.getLast?_append_of_ne_nil l (by simp),
          show cmid :: x :: xs = [cmid] ++ x :: xs from rfl,
          List.getLast?_append_of_ne_nil [cmid] (by simp)] at hc
        have hmem : c ∈ x :: xs := mem_of_getLast? hc
        rw [← hw2e] at hmem
        exact Or.inl (hws2 c hmem)
    · exact absurd h (by simp)

/-- A successfully parsed document neither starts with a(ny) code fence nor
ends with one: no JSON value starts or ends with a backtick. -/
theorem json_loads_ok_no_fence {s : String} {v : Json} (h : json_loads s = .ok v) :
    pyStartswith s "```json" = false ∧ pyEndswith s "```" = false := by
  constructor
  · by_contra hsw
    rw [Bool.not_eq_false] at hsw
    rw [pyStartswith_iff] at hsw
    obtain ⟨tl, htl⟩ := hsw
    have : s.data = bq :: ("``json".data ++ tl) := by rw [htl]; rfl
    rw [json_loads_head_backtick this] at h
    exact absurd h (by simp)
  · by_contra hew
    rw [Bool.not_eq_false] at hew
    have hlast := pyEndswith_fence3 hew
    rcases json_loads_ok_getLast h bq hlast with h1 | h2
    · exact absurd h1 (by decide)
    · exact h2 rfl

end QFanOut

namespace QFanOut

theorem fenced_data (t : String) :
    ("```json\n" ++ t ++ "\n```").data =
      bq :: ("``json\n".data ++ (t.data ++ "\n```".data)) := by
  simp only [String.data_append, List.append_assoc]
  rfl

theorem fenced_data_concat (t : String) :
    ("```json\n" ++ t ++ "\n```").data =
      (("```json\n".data ++ t.data) ++ "\n``".data) ++ [bq] := by
  simp only [String.data_append, List.append_assoc]
  rfl

theorem pyStrip_fenced (t : String) :
    pyStrip ("```json\n" ++ t ++ "\n```") = "```json\n" ++ t ++ "\n```" := by
  apply String.ext
  show stripList _ = _
  apply stripList_eq_self
  · intro c hc
    rw [fenced_data t] at hc
    simp only [List.head?_cons, Option.some.injEq] at hc
    rw [← hc]
    decide
  · intro c hc
    rw [fenced_data_concat t, List.getLast?_concat] at hc
    simp only [Option.some.injEq] at hc
    rw [← hc]
    decide

theorem startswith_fenced (t : String) :
    pyStartswith ("```json\n" ++ t ++ "\n```") "```json" = true := by
  exact pyStartswith_append "\n```" (pyStartswith_append t (by decide))

theorem strDrop_fenced (t : String) :
    strDrop ("```json\n" ++ t ++ "\n```") 7 = "\n" ++ t ++ "\n```" := by
  apply String.ext
  show (("```json\n" ++ t ++ "\n```").data).drop 7 = _
  rw [show ("```json\n" ++ t ++ "\n```").data =
      "```json\n".data ++ (t.data ++ "\n```".data) by
    simp [String.data_append, List.append_assoc]]
  rw [show ("\n" ++ t ++ "\n```").data = "\n".data ++ (t.data ++ "\n```".data) by
    simp [String.data_append, List.append_assoc]]
  rfl

theorem endswith_afterdrop (t : String) :
    pyEndswith ("\n" ++ t ++ "\n```") "```" = true := by
  exact pyEndswith_append_left ("\n" ++ t) (by decide)

theorem strDropRight_fenced (t : String) :
    strDropRight ("\n" ++ t ++ "\n```") 3 = "\n" ++ t ++ "\n" := by
  apply String.ext
  show (("\n" ++ t ++ "\n```").data).take (("\n" ++ t ++ "\n```").data.length - 3) = _
  have hsplit : ("\n" ++ t ++ "\n```").data =
      ("\n" ++ t ++ "\n").data ++ [bq, bq, bq] := by
    simp only [String.data_append, List.append_assoc]
    rfl
  rw [hsplit, List.length_append]
  simp only [List.length_cons, List.length_nil]
  rw [show ("\n" ++ t ++ "\n").data.length + 3 - 3 = ("\n" ++ t ++ "\n").data.length by omega]
  exact List.take_left _ _

theorem cleanText_fenced (t : String) :
    cleanText ("```json\n" ++ t ++ "\n```") = pyStrip t := by
  unfold cleanText
  dsimp only
  rw [pyStrip_fenced t]
  rw [if_pos (startswith_fenced t)]
  rw [strDrop_fenced t]
  rw [if_pos (endswith_afterdrop t)]
  rw [strDropRight_fenced t]
  rw [show ("\n" ++ t ++ "\n" : String) = ("\n" ++ t) ++ "\n" from rfl]
  rw [pyStrip_newline_right ("\n" ++ t), pyStrip_newline_left t]

theorem cleanText_of_ok {t : String} {v : Json}
    (h : json_loads (pyStrip t) = .ok v) : cleanText t = pyStrip t := by
  obtain ⟨h1, h2⟩ := json_loads_ok_no_fence h
  unfold cleanText
  dsimp only
  simp [h1, h2, pyStrip_idem]

end QFanOut

namespace QFanOut

theorem stripList_cons_not_space {c : Char} (hc : pyIsSpace c = false) (l : List Char) :
    ∃ X, stripList (c :: l) = c :: X := by
  simp only [stripList]
  rw [List.dropWhile_cons, if_neg (by simp [hc])]
  rw [List.reverse_cons, List.dropWhile_append]
  by_cases he : (l.reverse.dropWhile pyIsSpace).isEmpty
  · rw [if_pos he]
    rw [List.dropWhile_cons, if_neg (by simp [hc])]
    exact ⟨[], by simp⟩
  · rw [if_neg he]
    rw [List.reverse_append]
    exact ⟨(l.reverse.dropWhile pyIsSpace).reverse, by simp⟩

theorem json_loads_nil {s : String} (hs : s.data = []) :
    json_loads s = .error ⟨"Expecting value", 0⟩ := by
  simp only [json_loads, hs]
  rfl

/-- C4: for every JSON body text `t` (a text whose stripped form parses),
running the response parser on the fenced string
`"```json\n" ++ t ++ "\n```"` yields exactly the same result as running it
on `t` directly. -/
theorem C4_fence_roundtrip (t : String) (v : Json)
    (h : json_loads (pyStrip t) = .ok v) :
    parsePipeline ("```json\n" ++ t ++ "\n```") = parsePipeline t := by
  unfold parsePipeline
  rw [cleanText_fenced t, cleanText_of_ok h]

/-- Witness for C4 at the JSON body `{"a": 1}`. -/
theorem C4_fence_roundtrip_witness :
    json_loads (pyStrip "\x7b\"a\": 1\x7d") = .ok (.obj [("a", .jint 1)]) ∧
    parsePipeline ("```json\n" ++ "\x7b\"a\": 1\x7d" ++ "\n```") =
      parsePipeline "\x7b\"a\": 1\x7d" :=
  ⟨rfl, C4_fence_roundtrip "\x7b\"a\": 1\x7d" (.obj [("a", .jint 1)]) rfl⟩

/-- C9: the two fence strips are independent checks on the trimmed response
text: the leading strip fires only on `startswith("```json")` (so a plain
"```" opening fence is left in place and the parse then fails), while the
trailing strip fires whenever the text ends with "```", opening fence or
not. -/
theorem C9_fence_strips (u : String) :
    (pyStartswith (pyStrip u) "```json" = false → pyEndswith (pyStrip u) "```" = false →
      cleanText u = pyStrip u) ∧
    (pyStartswith (pyStrip u) "```json" = false → pyEndswith (pyStrip u) "```" = true →
      cleanText u = pyStrip (strDropRight (pyStrip u) 3)) ∧
    (pyStartswith (pyStrip u) "```json" = true →
      cleanText u =
        pyStrip (if pyEndswith (strDrop (pyStrip u) 7) "```" = true
          then strDropRight (strDrop (pyStrip u) 7) 3 else strDrop (pyStrip u) 7)) ∧
    (pyStartswith (pyStrip u) "```" = true → pyStartswith (pyStrip u) "```json" = false →
      ∃ e, json_loads (cleanText u) = .error e) := by
  have part1 : pyStartswith (pyStrip u) "```json" = false →
      pyEndswith (pyStrip u) "```" = false → cleanText u = pyStrip u := by
    intro h1 h2
    unfold cleanText
    dsimp only
    simp [h1, h2, pyStrip_idem]
  have part2 : pyStartswith (pyStrip u) "```json" = false →
      pyEndswith (pyStrip u) "```" = true →
      cleanText u = pyStrip (strDropRight (pyStrip u) 3) := by
    intro h1 h2
    unfold cleanText
    dsimp only
    simp [h1, h2]
  have part3 : pyStartswith (pyStrip u) "```json" = true →
      cleanText u =
        pyStrip (if pyEndswith (strDrop (pyStrip u) 7) "```" = true
          then strDropRight (strDrop (pyStrip u) 7) 3 else strDrop (pyStrip u) 7) := by
    intro h1
    unfold cleanText
    dsimp only
    simp [h1]
  refine ⟨part1, part2, part3, ?_⟩
  intro hs3 hns
  obtain ⟨tl, htl⟩ := pyStartswith_fence3 hs3
  by_cases hew : pyEndswith (pyStrip u) "```" = true
  · rw [part2 hns hew]
    cases tl with
    | nil =>
      have hdata : (strDropRight (pyStrip u) 3).data = [] := by
        show ((pyStrip u).data).take ((pyStrip u).data.length - 3) = []
        rw [htl]
        rfl
      refine ⟨⟨"Expecting value", 0⟩, json_loads_nil ?_⟩
      rw [pyStrip_data, hdata]
      rfl
    | cons a tl2 =>
      have hdata : (strDropRight (pyStrip u) 3).data =
          bq :: (bq :: bq :: a :: tl2).take (tl2.length + 1 - 1) := by
        show ((pyStrip u).data).take ((pyStrip u).data.length - 3) = _
        rw [htl]
        simp only [List.length_cons]
        rw [show tl2.length + 1 + 1 + 1 + 1 - 3 = tl2.length + 1 by omega]
        rfl
      obtain ⟨X, hX⟩ := stripList_cons_not_space (c := bq) (by decide)
        ((bq :: bq :: a :: tl2).take (tl2.length + 1 - 1))
      refine ⟨⟨"Expecting value", 0⟩, json_loads_head_backtick (t := X) ?_⟩
      rw [pyStrip_data, hdata]
      exact hX
  · have hewf : pyEndswith (pyStrip u) "```" = false := by
      rwa [Bool.not_eq_true] at hew
    rw [part1 hns hewf]
    exact ⟨⟨"Expecting value", 0⟩, json_loads_head_backtick htl⟩

/-- Witness for C9: a response wrapped in plain (non-json) fences keeps its
opening fence, loses its closing fence, and then fails to parse. -/
theorem C9_fence_strips_witness :
    cleanText "```\nhi\n```" = pyStrip (strDropRight (pyStrip "```\nhi\n```") 3) ∧
    (∃ e, json_loads (cleanText "```\nhi\n```") = .error e) := by
  have h := C9_fence_strips "```\nhi\n```"
  exact ⟨h.2.1 rfl rfl, h.2.2.2 rfl rfl⟩

end QFanOut

namespace QFanOut

/-! ## Supporting lemmas: the batch loop is a concatenation of per-item
outputs -/

theorem combineOut_assoc (a b c : ItemOut) :
    combineOut (combineOut a b) c = combineOut a (combineOut b c) := by
  simp [combineOut, List.append_assoc]

theorem combineOut_empty_left (b : ItemOut) : combineOut ⟨[], [], [], []⟩ b = b := by
  cases b
  simp [combineOut]

theorem combineOut_empty_right (a : ItemOut) : combineOut a ⟨[], [], [], []⟩ = a := by
  cases a
  simp [combineOut]

theorem runItems_foldl_shift (gen : String → Except PyExc String) (mode : String) :
    ∀ (qs : List String) (a : ItemOut),
      qs.foldl (fun acc q => combineOut acc (processItem gen mode q)) a =
        combineOut a
          (qs.foldl (fun acc q => combineOut acc (processItem gen mode q)) ⟨[], [], [], []⟩) := by
  intro qs
  induction qs with
  | nil =>
    intro a
    simp [combineOut_empty_right]
  | cons x xs ih =>
    intro a
    rw [List.foldl_cons, ih, List.foldl_cons, ih (combineOut ⟨[], [], [], []⟩ _),
      combineOut_empty_left, combineOut_assoc]

theorem runItems_cons (gen : String → Except PyExc String) (mode q : String)
    (qs : List String) :
    runItems gen mode (q :: qs) =
      combineOut (processItem gen mode q) (runItems gen mode qs) := by
  show (q :: qs).foldl _ _ = _
  rw [List.foldl_cons, combineOut_empty_left, runItems_foldl_shift]
  rfl

theorem runItems_errors (gen : String → Except PyExc String) (mode : String)
    (qs : List String) :
    (runItems gen mode qs).errors =
      (qs.map fun q => (processItem gen mode q).errors).flatten := by
  induction qs with
  | nil => rfl
  | cons q qs ih => rw [runItems_cons, List.map_cons, List.flatten_cons, ← ih]; rfl

theorem runItems_rows (gen : String → Except PyExc String) (mode : String)
    (qs : List String) :
    (runItems gen mode qs).rows =
      (qs.map fun q => (processItem gen mode q).rows).flatten := by
  induction qs with
  | nil => rfl
  | cons q qs ih => rw [runItems_cons, List.map_cons, List.flatten_cons, ← ih]; rfl

theorem runItems_summaries (gen : String → Except PyExc String) (mode : String)
    (qs : List String) :
    (runItems gen mode qs).summaries =
      (qs.map fun q => (processItem gen mode q).summaries).flatten := by
  induction qs with
  | nil => rfl
  | cons q qs ih => rw [runItems_cons, List.map_cons, List.flatten_cons, ← ih]; rfl

theorem flatten_eq_single {α : Type} (xs : List (List α)) (k : Nat) (hk : k < xs.length)
    (hothers : ∀ i (hi : i < xs.length), i ≠ k → xs.get ⟨i, hi⟩ = []) :
    xs.flatten = xs.get ⟨k, hk⟩ := by
  induction xs generalizing k with
  | nil => simp at hk
  | cons x rest ih =>
    cases k with
    | zero =>
      have hrest : rest.flatten = [] := by
        rw [List.flatten_eq_nil_iff]
        intro y hy
        obtain ⟨i, hyi⟩ := List.mem_iff_get.mp hy
        rw [← hyi]
        exact hothers (i.1 + 1) (Nat.succ_lt_succ i.2) (Nat.succ_ne_zero i.1)
      rw [List.flatten_cons, hrest, List.append_nil]
      rfl
    | succ k2 =>
      have hx : x = [] := hothers 0 (Nat.succ_pos _) (by simp)
      rw [List.flatten_cons, hx, List.nil_append]
      have hk2 : k2 < rest.length := Nat.lt_of_succ_lt_succ hk
      rw [ih k2 hk2 ?_]
      · rfl
      · intro i hi hne
        exact hothers (i + 1) (Nat.succ_lt_succ hi) (by simpa using hne)

theorem countP_all_but_one {α : Type} (P : α → Bool) (xs : List α) (k : Nat)
    (hk : k < xs.length)
    (hothers : ∀ i (hi : i < xs.length), i ≠ k → P (xs.get ⟨i, hi⟩) = true)
    (hkf : P (xs.get ⟨k, hk⟩) = false) :
    xs.countP P = xs.length - 1 := by
  induction xs generalizing k with
  | nil => simp at hk
  | cons x rest ih =>
    cases k with
    | zero =>
      have hall : ∀ y ∈ rest, P y = true := by
        intro y hy
        obtain ⟨i, hyi⟩ := List.mem_iff_get.mp hy
        rw [← hyi]
        exact hothers (i.1 + 1) (Nat.succ_lt_succ i.2) (Nat.succ_ne_zero i.1)
      have hx : P x = false := hkf
      rw [List.countP_cons, hx]
      simp only [if_false, Nat.add_zero, List.length_cons, Nat.add_sub_cancel]
      exact List.countP_eq_length.mpr hall
    | succ k2 =>
      have hx : P x = true := hothers 0 (Nat.succ_pos _) (by simp)
      have hk2 : k2 < rest.length := Nat.lt_of_succ_lt_succ hk
      rw [List.countP_cons, hx]
      simp only [if_true]
      have hrec := ih k2 hk2
        (fun i hi hne => hothers (i + 1) (Nat.succ_lt_succ hi) (by simpa using hne)) hkf
      rw [hrec]
      simp only [List.length_cons]
      omega

theorem processItem_errors_tagged (gen : String → Except PyExc String) (mode q : String) :
    ∀ e ∈ (processItem gen mode q).errors, e.lookup_query = q := by
  intro e he
  unfold processItem at he
  repeat' split at he
  all_goals
    first
    | exact absurd he (List.not_mem_nil e)
    | (rw [List.mem_singleton] at he; rw [he])

end QFanOut

namespace QFanOut

theorem get_map_idx {α β : Type} (f : α → β) (l : List α) (k : Nat) (hk : k < l.length)
    (hk2 : k < (l.map f).length) :
    (l.map f).get ⟨k, hk2⟩ = f (l.get ⟨k, hk⟩) := by
  simp

/-- C1: when processing of lookup `k` raises (one error record is caught
for it) and every other lookup succeeds, the batch still emits every item's
appends in input order: the error list is exactly that one record tagged
with lookup `k`'s text, the rows and plan summaries are the concatenation
of the per-item outputs in input order, and exactly `N - 1` items finished
without an error. -/
theorem C1_batch_isolation (gen : String → Except PyExc String) (mode : String)
    (qs : List String) (k : Nat) (hk : k < qs.length) (er : ErrRec)
    (hfail : (processItem gen mode (qs.get ⟨k, hk⟩)).errors = [er])
    (hok : ∀ i (hi : i < qs.length), i ≠ k →
      (processItem gen mode (qs.get ⟨i, hi⟩)).errors = []) :
    (runBatch gen mode qs).errors = [er] ∧
    er.lookup_query = qs.get ⟨k, hk⟩ ∧
    (runBatch gen mode qs).all_rows =
      (qs.map fun q => (processItem gen mode q).rows).flatten ∧
    (runBatch gen mode qs).run_summaries =
      (qs.map fun q => (processItem gen mode q).summaries).flatten ∧
    (qs.map fun q => processItem gen mode q).countP (fun o => o.errors.isEmpty) =
      qs.length - 1 := by
  have hmaplen : (qs.map fun q => (processItem gen mode q).errors).length = qs.length := by
    simp
  refine ⟨?_, ?_, ?_, ?_, ?_⟩
  · show (runItems gen mode qs).errors = [er]
    rw [runItems_errors]
    rw [flatten_eq_single (qs.map fun q => (processItem gen mode q).errors) k
      (by simpa using hk) ?_]
    · rw [get_map_idx _ qs k hk]
      exact hfail
    · intro i hi hne
      rw [get_map_idx _ qs i (by simpa using hi)]
      exact hok i (by simpa using hi) hne
  · apply processItem_errors_tagged gen mode (qs.get ⟨k, hk⟩)
    rw [hfail]
    exact List.mem_singleton.mpr rfl
  · show (runItems gen mode qs).rows = _
    exact runItems_rows gen mode qs
  · show (runItems gen mode qs).summaries = _
    exact runItems_summaries gen mode qs
  · have hc := countP_all_but_one (fun o : ItemOut => o.errors.isEmpty)
      (qs.map fun q => processItem gen mode q) k (by simpa using hk) ?_ ?_
    · simpa using hc
    · intro i hi hne
      rw [get_map_idx _ qs i (by simpa using hi)]
      show (processItem gen mode (qs.get ⟨i, _⟩)).errors.isEmpty = true
      rw [hok i (by simpa using hi) hne]
      rfl
    · rw [get_map_idx _ qs k hk]
      show (processItem gen mode (qs.get ⟨k, hk⟩)).errors.isEmpty = false
      rw [hfail]
      rfl

/-- Witness for C1: a single lookup whose client call raises a transport
fault. -/
theorem C1_batch_isolation_witness :
    (runBatch (fun _ => .error (.clientError "503 quota")) "AI Mode (complex)"
      ["q1"]).errors = [⟨"q1", "503 quota"⟩] ∧
    (⟨"q1", "503 quota"⟩ : ErrRec).lookup_query = (["q1"].get ⟨0, by decide⟩) ∧
    (runBatch (fun _ => .error (.clientError "503 quota")) "AI Mode (complex)"
        ["q1"]).all_rows =
      (["q1"].map fun q =>
        (processItem (fun _ => .error (.clientError "503 quota"))
          "AI Mode (complex)" q).rows).flatten ∧
    (runBatch (fun _ => .error (.clientError "503 quota")) "AI Mode (complex)"
        ["q1"]).run_summaries =
      (["q1"].map fun q =>
        (processItem (fun _ => .error (.clientError "503 quota"))
          "AI Mode (complex)" q).summaries).flatten ∧
    (["q1"].map fun q =>
        processItem (fun _ => .error (.clientError "503 quota"))
          "AI Mode (complex)" q).countP (fun o => o.errors.isEmpty) =
      (["q1"] : List String).length - 1 :=
  C1_batch_isolation (fun _ => .error (.clientError "503 quota")) "AI Mode (complex)"
    ["q1"] 0 (by decide) ⟨"q1", "503 quota"⟩ rfl
    (fun i hi hne =>
      absurd (show i = 0 by
        simp only [List.length_cons, List.length_nil] at hi
        omega) hne)

end QFanOut

namespace QFanOut

theorem runItems_append (gen : String → Except PyExc String) (mode : String)
    (qs1 qs2 : List String) :
    runItems gen mode (qs1 ++ qs2) =
      combineOut (runItems gen mode qs1) (runItems gen mode qs2) := by
  induction qs1 with
  | nil =>
    rw [List.nil_append,
      show runItems gen mode ([] : List String) = ⟨[], [], [], []⟩ from rfl,
      combineOut_empty_left]
  | cons x xs ih =>
    rw [List.cons_append, runItems_cons, ih, runItems_cons, combineOut_assoc]

/-- C8 counterexample: a response whose `expanded_queries` is the number
`5` parses fine, so the summary row is appended, and only then does the
row loop raise `TypeError` — the failed lookup leaves both an error record
and a generation-plan summary entry in the outcome. -/
theorem C8_only_trace_counterexample :
    (runBatch (fun _ => .ok "\x7b\"expanded_queries\": 5\x7d") "AI Mode (complex)"
        ["a"]).errors = [⟨"a", "'int' object is not iterable"⟩] ∧
    (runBatch (fun _ => .ok "\x7b\"expanded_queries\": 5\x7d") "AI Mode (complex)"
        ["a"]).run_summaries = [summaryRow "a" Json.null (Json.str "")] :=
  ⟨rfl, rfl⟩

/-- C8 amended: a lookup that raises before its summary dict is appended
(in the client call, fence-stripping, `json.loads`, or the `details.get`
calls) leaves no rows and no summary entry — the error record is its only
trace; and in every case a lookup contributes at most its own single
summary row, so a later flattening failure leaves exactly that one entry
behind. -/
theorem C8_failed_lookup_trace :
    (∀ (gen : String → Except PyExc String) (mode q : String) (e : PyExc),
      generate_fanout gen q mode = .error e →
      processItem gen mode q = ⟨[], [], [⟨q, pyExcStr e⟩], [errStatusMsg e q]⟩) ∧
    (∀ (gen : String → Except PyExc String) (mode q : String),
      (processItem gen mode q).summaries = [] ∨
      ∃ tq rc, (processItem gen mode q).summaries = [summaryRow q tq rc]) := by
  constructor
  · intro gen mode q e h
    unfold processItem
    rw [h]
  · intro gen mode q
    unfold processItem
    repeat' split
    all_goals
      first
      | exact Or.inl rfl
      | exact Or.inr ⟨_, _, rfl⟩

/-- Witness for the amended C8 at a failing client call. -/
theorem C8_failed_lookup_trace_witness :
    processItem (fun _ => .error (.clientError "boom")) "AI Mode (complex)" "a" =
      ⟨[], [], [⟨"a", "boom"⟩], ["❌ Error for 'a': boom"]⟩ :=
  C8_failed_lookup_trace.1 (fun _ => .error (.clientError "boom"))
    "AI Mode (complex)" "a" (.clientError "boom") rfl

/-- C2 counterexample: a non-JSON response is recorded with only
`str(JSONDecodeError)` — the raw response text is not contained in the
error record. -/
theorem C2_raw_text_counterexample :
    (runBatch (fun _ => .ok "I cannot help with that.") "AI Mode (complex)"
        ["a"]).errors = [⟨"a", "Expecting value: line 1 column 1 (char 0)"⟩] ∧
    strContainsB "Expecting value: line 1 column 1 (char 0)"
      "I cannot help with that." = false :=
  ⟨rfl, rfl⟩

/-- C2 amended: a JSON parse failure is caught per item and recorded as
`{"lookup_query": q, "error": str(e)}` with the parse error's message (not
the response text); the batch continues around the failed item; the
single-query variant is the one that shows the fence-stripped response
text in its diagnostics. -/
theorem C2_parse_failure_handling :
    (∀ (gen : String → Except PyExc String) (mode q resp : String) (em : JsonErr),
      gen (QUERY_FANOUT_PROMPT q mode) = .ok resp →
      json_loads (cleanText resp) = .error em →
      processItem gen mode q =
        ⟨[], [], [⟨q, fmtJsonErrStr em.msg (cleanText resp) em.pos⟩],
         ["❌ JSON parse failed for '" ++ q ++ "': " ++
           fmtJsonErrStr em.msg (cleanText resp) em.pos]⟩) ∧
    (∀ (gen : String → Except PyExc String) (mode q : String) (qs1 qs2 : List String),
      (runBatch gen mode (qs1 ++ q :: qs2)).errors =
        (runItems gen mode qs1).errors ++ (processItem gen mode q).errors ++
          (runItems gen mode qs2).errors) ∧
    (∀ (gen : String → Except PyExc String) (mode q resp : String) (em : JsonErr),
      gen (QUERY_FANOUT_PROMPT_single q mode) = .ok resp →
      json_loads (cleanText resp) = .error em →
      (generate_fanout_single gen q mode).shown =
        ["Failed to parse Gemini response as JSON.", "Raw response:", cleanText resp]) := by
  refine ⟨?_, ?_, ?_⟩
  · intro gen mode q resp em h1 h2
    unfold processItem generate_fanout parsePipeline
    rw [h1]
    dsimp only
    rw [h2]
    rfl
  · intro gen mode q qs1 qs2
    show (runItems gen mode (qs1 ++ q :: qs2)).errors = _
    rw [runItems_append, runItems_cons]
    show (runItems gen mode qs1).errors ++
      ((processItem gen mode q).errors ++ (runItems gen mode qs2).errors) = _
    rw [List.append_assoc]
  · intro gen mode q resp em h1 h2
    unfold generate_fanout_single
    rw [h1]
    dsimp only
    rw [h2]

/-- Witness for the amended C2 at a concrete non-JSON response. -/
theorem C2_parse_failure_handling_witness :
    processItem (fun _ => .ok "nope") "AI Mode (complex)" "a" =
      ⟨[], [], [⟨"a", fmtJsonErrStr "Expecting value" (cleanText "nope") 0⟩],
       ["❌ JSON parse failed for 'a': " ++
         fmtJsonErrStr "Expecting value" (cleanText "nope") 0]⟩ ∧
    (generate_fanout_single (fun _ => .ok "nope") "a" "AI Mode (complex)").shown =
      ["Failed to parse Gemini response as JSON.", "Raw response:", cleanText "nope"] :=
  ⟨C2_parse_failure_handling.1 (fun _ => .ok "nope") "AI Mode (complex)" "a" "nope"
      ⟨"Expecting value", 0⟩ rfl rfl,
   C2_parse_failure_handling.2.2 (fun _ => .ok "nope") "AI Mode (complex)" "a" "nope"
      ⟨"Expecting value", 0⟩ rfl rfl⟩

end QFanOut

namespace QFanOut

/-- C5: on a successfully parsed JSON object, field extraction never
fails; `generation_details` defaults to the empty object and
`expanded_queries` to the empty list when absent. -/
theorem C5_missing_field_defaults (kvs : List (String × Json)) :
    extractFields (Json.obj kvs) =
      .ok (dGet kvs "generation_details" (Json.obj []),
           dGet kvs "expanded_queries" (Json.arr [])) ∧
    (lookupLast kvs "generation_details" = none →
      dGet kvs "generation_details" (Json.obj []) = Json.obj []) ∧
    (lookupLast kvs "expanded_queries" = none →
      dGet kvs "expanded_queries" (Json.arr []) = Json.arr []) := by
  refine ⟨rfl, ?_, ?_⟩
  · intro h
    unfold dGet
    rw [h]
    rfl
  · intro h
    unfold dGet
    rw [h]
    rfl

/-- Witness for C5 on an object with neither field. -/
theorem C5_missing_field_defaults_witness :
    extractFields (Json.obj [("other", Json.jint 1)]) = .ok (Json.obj [], Json.arr []) ∧
    dGet [("other", Json.jint 1)] "generation_details" (Json.obj []) = Json.obj [] ∧
    dGet [("other", Json.jint 1)] "expanded_queries" (Json.arr []) = Json.arr [] := by
  have h := C5_missing_field_defaults [("other", Json.jint 1)]
  refine ⟨?_, h.2.1 rfl, h.2.2 rfl⟩
  rw [h.1, h.2.1 rfl, h.2.2 rfl]

theorem rowFold_eq_keys (r : Row) : ∀ acc : List String,
    r.foldl (fun acc2 kv => if acc2.contains kv.1 then acc2 else acc2 ++ [kv.1]) acc =
      (r.map Prod.fst).foldl
        (fun acc2 k => if acc2.contains k then acc2 else acc2 ++ [k]) acc := by
  induction r with
  | nil => intro acc; rfl
  | cons kv rest ih =>
    intro acc
    rw [List.foldl_cons, List.map_cons, List.foldl_cons, ih]

theorem dfColumns_uniform (rows : List Row) (hne : rows ≠ [])
    (hall : ∀ r ∈ rows, r.map Prod.fst = preferred_cols) :
    dfColumns rows = preferred_cols := by
  have step : ∀ r : Row, r.map Prod.fst = preferred_cols →
      r.foldl (fun acc2 kv => if acc2.contains kv.1 then acc2 else acc2 ++ [kv.1])
        preferred_cols = preferred_cols := by
    intro r hr
    rw [rowFold_eq_keys, hr]
    rfl
  have aux : ∀ rs : List Row, (∀ r ∈ rs, r.map Prod.fst = preferred_cols) →
      rs.foldl
        (fun acc r =>
          r.foldl (fun acc2 kv => if acc2.contains kv.1 then acc2 else acc2 ++ [kv.1]) acc)
        preferred_cols = preferred_cols := by
    intro rs
    induction rs with
    | nil => intro _; rfl
    | cons x xs ih =>
      intro hx
      rw [List.foldl_cons, step x (hx x (by simp))]
      exact ih fun r hr => hx r (by simp [hr])
  cases rows with
  | nil => exact absurd rfl hne
  | cons r rest =>
    show (r :: rest).foldl _ [] = _
    rw [List.foldl_cons]
    have h1 : r.foldl
        (fun acc2 kv => if acc2.contains kv.1 then acc2 else acc2 ++ [kv.1]) [] =
        preferred_cols := by
      rw [rowFold_eq_keys, hall r (by simp)]
      rfl
    rw [h1]
    exact aux rest fun x hx => hall x (by simp [hx])

/-- C7: every flattened row of a successful lookup carries exactly the
preferred columns in order (any further columns a frame might have would be
appended after them by the reorder), and a missing `routing_format`
sub-field becomes the empty string instead of failing. -/
theorem C7_row_shape (q : String) (kvs : List (String × Json))
    (hmiss : lookupLast kvs "routing_format" = none) :
    ∃ row, flattenRow q (Json.obj kvs) = .ok row ∧
      row.map Prod.fst = preferred_cols ∧
      lookupLast row "routing_format" = some (Json.str "") ∧
      (∀ rows : List Row, rows ≠ [] →
        (∀ r ∈ rows, r.map Prod.fst = preferred_cols) →
        reorderCols (dfColumns rows) = preferred_cols) := by
  refine ⟨_, rfl, rfl, ?_, ?_⟩
  · have hd : dGet kvs "routing_format" (Json.str "") = Json.str "" := by
      unfold dGet
      rw [hmiss]
      rfl
    simp [lookupLast, hd]
  · intro rows hne hall
    rw [dfColumns_uniform rows hne hall]
    rfl

/-- Witness for C7 on an ExpandedQuery object with only a `query` field. -/
theorem C7_row_shape_witness :
    ∃ row, flattenRow "a" (Json.obj [("query", Json.str "x")]) = .ok row ∧
      row.map Prod.fst = preferred_cols ∧
      lookupLast row "routing_format" = some (Json.str "") ∧
      (∀ rows : List Row, rows ≠ [] →
        (∀ r ∈ rows, r.map Prod.fst = preferred_cols) →
        reorderCols (dfColumns rows) = preferred_cols) :=
  C7_row_shape "a" [("query", Json.str "x")] rfl

end QFanOut

namespace QFanOut

theorem strContains_head (sub b : String) : StrContains (sub ++ b) sub :=
  ⟨"", b, rfl⟩

theorem strContains_append_right (a b sub : String) (h : StrContains b sub) :
    StrContains (a ++ b) sub := by
  obtain ⟨l, r, hh⟩ := h
  refine ⟨a ++ l, r, ?_⟩
  rw [hh]
  simp only [String.append_assoc]

/-- C6: for every query string and both modes, each prompt builder embeds
the literal query text and the mode-appropriate minimum-count token
("10" for simple, "20" for complex). -/
theorem C6_prompt_contains_query_and_min (q : String) (m : Mode) :
    StrContains (QUERY_FANOUT_PROMPT q (modeStr m)) q ∧
    StrContains (QUERY_FANOUT_PROMPT q (modeStr m)) (minTok m) ∧
    StrContains (QUERY_FANOUT_PROMPT_single q (modeStr m)) q ∧
    StrContains (QUERY_FANOUT_PROMPT_single q (modeStr m)) (minTok m) := by
  cases m
  all_goals refine ⟨?_, ?_, ?_, ?_⟩
  all_goals simp only [QUERY_FANOUT_PROMPT, QUERY_FANOUT_PROMPT_single, modeStr,
    minTok, String.reduceEq, reduceIte, ite_true, ite_false,
    show toString (10 : Nat) = "10" from rfl,
    show toString (20 : Nat) = "20" from rfl]
  all_goals simp only [String.append_assoc]
  all_goals repeat first | exact strContains_head _ _ | apply strContains_append_right

end QFanOut

namespace QFanOut

/-- C10: the bulk lookup list is each input line stripped, with
whitespace-only lines discarded, in input order; an empty lookup list (or a
blank single query) stops with a warning whose result does not depend on
the generation client at all. -/
theorem C10_lookup_construction (bulk uq mode : String)
    (gen : String → Except PyExc String) :
    mkLookupsBulk bulk =
      ((pySplitlines bulk).map pyStrip).filter (fun s => s != "") ∧
    (mkLookupsBulk bulk = [] →
      runHandlerBulk gen mode bulk =
        .warned "⚠️ Please provide at least one query.") ∧
    (pyStrip uq = "" → runSingleHandler gen uq mode = .ok .warnedEmpty) := by
  refine ⟨?_, ?_, ?_⟩
  · have h : ∀ l : List String,
        l.filterMap (fun q => if pyStrip q = "" then none else some (pyStrip q)) =
          (l.map pyStrip).filter (fun s => s != "") := by
      intro l
      induction l with
      | nil => rfl
      | cons a t ih =>
        rw [List.filterMap_cons, List.map_cons, List.filter_cons]
        by_cases hp : pyStrip a = ""
        · rw [if_pos hp, ih, hp]
          rw [if_neg (by decide)]
        · rw [if_neg hp, ih, if_pos (by simp [hp])]
    exact h _
  · intro h
    unfold runHandlerBulk runHandler
    rw [h]
    rfl
  · intro h
    unfold runSingleHandler
    rw [if_pos h]

/-- Witness for C10 on whitespace-only bulk and single inputs. -/
theorem C10_lookup_construction_witness :
    mkLookupsBulk " \n \n" =
      ((pySplitlines " \n \n").map pyStrip).filter (fun s => s != "") ∧
    runHandlerBulk (fun _ => .ok "") "AI Mode (complex)" " \n \n" =
      .warned "⚠️ Please provide at least one query." ∧
    runSingleHandler (fun _ => .ok "") " " "AI Mode (complex)" =
      .ok .warnedEmpty := by
  have h := C10_lookup_construction " \n \n" " " "AI Mode (complex)" (fun _ => .ok "")
  exact ⟨h.1, h.2.1 (by rfl), h.2.2 (by rfl)⟩

end QFanOut

namespace QFanOut

/-- C3 counterexample: a bulk run whose generation plan targets 12 queries
while exactly one row is produced records only the three plain summary
fields and shows no warning — no flag or equivalent signal marks the
mismatch in the returned batch outcome. -/
theorem C3_no_mismatch_flag_counterexample :
    (runBatch (fun _ => Except.ok mismatchDoc) "AI Mode (complex)" ["a"]).run_summaries =
      [summaryRow "a" (Json.jint 12) (Json.str "")] ∧
    (runBatch (fun _ => Except.ok mismatchDoc) "AI Mode (complex)" ["a"]).all_rows.length = 1 ∧
    pyIsInstanceInt (Json.jint 12) = true ∧
    pyIntVal (Json.jint 12) ≠ Int.ofNat 1 ∧
    ¬ mismatchSurfacedSpec
      (runBatch (fun _ => Except.ok mismatchDoc) "AI Mode (complex)" ["a"]) := by
  refine ⟨rfl, rfl, rfl, by decide, ?_⟩
  intro h
  have hw : (runBatch (fun _ => Except.ok mismatchDoc) "AI Mode (complex)"
      ["a"]).warnings = [] := rfl
  have hs : (runBatch (fun _ => Except.ok mismatchDoc) "AI Mode (complex)"
      ["a"]).run_summaries = [summaryRow "a" (Json.jint 12) (Json.str "")] := rfl
  rcases h with h1 | ⟨r, hr, kv, hkv, hn⟩
  · exact h1 hw
  · rw [hs] at hr
    simp only [List.mem_singleton] at hr
    subst hr
    simp only [summaryRow, List.mem_cons, List.not_mem_nil, or_false] at hkv
    rcases hkv with h2 | h2 | h2 <;> subst h2 <;> exact hn (by decide)

/-- C3: only the single-query variant surfaces the count mismatch, as a
warning banner: a completed single run returns the mismatch message exactly
when the extracted target count is an integer differing from the produced
count, and that message is never dropped when such a mismatch exists. -/
theorem C3_single_mismatch_warning (gen : String → Except PyExc String)
    (uq mode : String) (hq : ¬ pyStrip uq = "")
    (gd eqs : Json)
    (hso : generate_fanout_single gen uq mode = ⟨[], some gd, some eqs⟩)
    (hres : pyTruthy eqs = true) (hgd : pyTruthy gd = true)
    (n : Nat) (hn : pyLen eqs = .ok n)
    (tq : Json) (htq : pyDictGet gd "target_query_count" (Json.str "N/A") = .ok tq)
    (rc : Json)
    (hrc : pyDictGet gd "reasoning_for_count" (Json.str "Not provided.") = .ok rc) :
    runSingleHandler gen uq mode = .ok (.completed
      (if pyIsInstanceInt tq && pyIntVal tq != Int.ofNat n then
        some ("Model aimed for " ++ pyStrInt tq ++ " queries but generated " ++
          toString n ++ ".")
      else none) []) ∧
    (pyIsInstanceInt tq = true → pyIntVal tq ≠ Int.ofNat n →
      (if pyIsInstanceInt tq && pyIntVal tq != Int.ofNat n then
        some ("Model aimed for " ++ pyStrInt tq ++ " queries but generated " ++
          toString n ++ ".")
      else none) = some ("Model aimed for " ++ pyStrInt tq ++
        " queries but generated " ++ toString n ++ ".")) := by
  constructor
  · unfold runSingleHandler
    rw [if_neg hq, hso]
    dsimp only
    rw [hres, if_pos hgd, hn, htq, hrc]
    dsimp only
    rw [if_pos rfl]
  · intro h1 h2
    have hc : (pyIsInstanceInt tq && pyIntVal tq != Int.ofNat n) = true := by
      rw [h1]
      simpa using h2
    rw [if_pos hc]

/-- Witness for C3 on a reply targeting 12 queries while producing 1. -/
theorem C3_single_mismatch_warning_witness :
    runSingleHandler (fun _ => Except.ok mismatchDoc) "q" "AI Mode (complex)" =
      .ok (.completed (some "Model aimed for 12 queries but generated 1.") []) := by
  have h := C3_single_mismatch_warning (fun _ => Except.ok mismatchDoc) "q"
    "AI Mode (complex)" (by decide) (Json.obj [("target_query_count", Json.jint 12)])
    (Json.arr [Json.obj [("query", Json.str "x")]]) (by rfl) (by rfl) (by rfl)
    1 (by rfl) (Json.jint 12) (by rfl) (Json.str "Not provided.") (by rfl)
  exact h.1

end QFanOut
